import Mathlib

/-!
# goelasticsearch: a verification development of `main.go`

The program is a linear sequence of calls to a document-search service.  Every
operation builds a request, hands it to the client, and inspects the reply.
The embedding below follows `main.go` function by function.

* Go values of type `interface{}` obtained from `encoding/json` are the
  constructors of `JSON`; a `map[string]interface{}` is an association list.
* The client (`es`), `json.Marshal` and `json.NewDecoder(..).Decode` are library
  code: they are the fields of `Env`, and every theorem quantifies over them.
* `log.Fatalln` ends the process, a failed type assertion `x.(T)` panics; both
  are constructors of `Outcome`.  What an operation did before it ended is the
  `trace` of its `Run`.
* Go strings are modelled by Lean strings (sequences of Unicode code points).
-/

namespace GoElasticsearch

/-! ## Data model -/

/-- A `float64`: a finite value `num * 2 ^ exp`, an infinity, or not-a-number. -/
inductive Float64 where
  | finite (num : Int) (exp : Int)
  | inf (negative : Bool)
  | nan
  deriving DecidableEq, Repr

/-- A `time.Time`, as the civil date and time it renders to. -/
structure Time where
  year : Int
  month : Nat
  day : Nat
  hour : Nat
  minute : Nat
  second : Nat
  nanosecond : Nat
  deriving DecidableEq, Repr

/-- The struct `ProductDocument`; a nil `*time.Time` is `none`. -/
structure ProductDocument where
  Id : Int
  Seller_id : String
  Name : String
  Category : String
  Quantity : Int
  Price : Float64
  Weight : Int
  Size : String
  Status : String
  Description : String
  Created_at : Option Time
  Updated_at : Option Time
  deriving DecidableEq, Repr

/-- A decoded `interface{}`: `nil`, `bool`, a number (kept as its literal), `string`,
`[]interface{}` or `map[string]interface{}`. -/
inductive JSON where
  | null
  | bool (b : Bool)
  | number (literal : String)
  | string (s : String)
  | array (items : List JSON)
  | object (fields : List (String × JSON))
  deriving Repr

/-- A `map[string]interface{}`. -/
abbrev GoMap := List (String × JSON)

/-- Map indexing `m[key]`: the value stored at `key`, or `nil` when the key is absent. -/
def mapIndex : GoMap → String → JSON
  | [], _ => JSON.null
  | (k, v) :: rest, key => if k = key then v else mapIndex rest key

/-- The type assertion `v.(map[string]interface{})`; `none` is the runtime panic. -/
def assertMap : JSON → Option GoMap
  | JSON.object fields => some fields
  | _ => none

/-- The type assertion `v.([]interface{})`; `none` is the runtime panic. -/
def assertSlice : JSON → Option (List JSON)
  | JSON.array items => some items
  | _ => none

/-- The calls of the client API the program uses, with the arguments it passes. -/
inductive Request where
  | index (indexName : String) (body : String) (documentID : Option String)
  | get (indexName : String) (documentID : String)
  | search (indexName : String) (body : String)
  | update (indexName : String) (documentID : String) (body : String)
  | delete (indexName : String) (documentID : String)
  deriving DecidableEq, Repr

/-- The document id a request is addressed to, when it has one. -/
def Request.documentID? : Request → Option String
  | Request.index _ _ id => id
  | Request.get _ id => some id
  | Request.search _ _ => none
  | Request.update _ id _ => some id
  | Request.delete _ id => some id

/-- An `esapi.Response`: the HTTP status code and the body. -/
structure Response where
  StatusCode : Nat
  Body : String
  deriving DecidableEq, Repr

/-- The method `IsError` of `esapi.Response`: the status code is above 299. -/
def Response.IsError (res : Response) : Bool := decide (299 < res.StatusCode)

/-- The library code an operation calls: the client, and the JSON encoder and decoder. -/
structure Env where
  /-- `es.Index`, `es.Get`, `es.Search`, `es.Update`, `es.Delete`: a reply or an error. -/
  transport : Request → Except String Response
  /-- `json.Marshal` of a `ProductDocument`. -/
  marshalDocument : ProductDocument → Except String String
  /-- `json.Marshal` of a `map[string]interface{}`. -/
  marshalMap : GoMap → Except String String
  /-- `json.NewDecoder(body).Decode(&m)` with `m` a `map[string]interface{}`. -/
  decode : String → Except String GoMap

/-- The second argument of a `log.Fatalln`: an error, or a response's `Status()`. -/
inductive Detail where
  | err (e : String)
  | status (code : Nat)
  deriving DecidableEq, Repr

/-- How an operation ends. -/
inductive Outcome where
  /-- The function returned to its caller. -/
  | returned
  /-- A `log.Fatalln(message, detail)`: the message is logged and the process exits. -/
  | fatal (message : String) (detail : Detail)
  /-- A failed type assertion: a runtime panic. -/
  | panicked
  deriving DecidableEq, Repr

/-- The exit status of the process when the operation ends it: `log.Fatalln` exits with
status 1, an unrecovered panic with status 2; a returned operation does not exit. -/
def Outcome.exitCode : Outcome → Option Nat
  | Outcome.returned => none
  | Outcome.fatal _ _ => some 1
  | Outcome.panicked => some 2

/-- What a failed operation hands to whoever observes it, apart from the detail passed
through: the exit status and the fixed message. -/
def Outcome.failureKind : Outcome → Option (Nat × String)
  | Outcome.returned => none
  | Outcome.fatal message _ => some (1, message)
  | Outcome.panicked => some (2, "")

/-- What an operation does, in order, before it ends. -/
inductive Event where
  /-- A call of the client with this request. -/
  | call (req : Request)
  /-- The statement `fmt.Printf("Document: %v\n", source)`. -/
  | printDocument (source : GoMap)
  /-- The statement `log.Println("Document: ", source)`. -/
  | logDocument (source : GoMap)
  /-- The statement `log.Println(message)`. -/
  | log (message : String)
  deriving Repr

/-- One execution of an operation. -/
structure Run where
  trace : List Event
  outcome : Outcome

/-- The requests of a trace, in order. -/
def requestsOf : List Event → List Request
  | [] => []
  | Event.call req :: rest => req :: requestsOf rest
  | _ :: rest => requestsOf rest

/-- The documents a trace prints with `fmt.Printf`, in order. -/
def printedDocuments : List Event → List GoMap
  | [] => []
  | Event.printDocument source :: rest => source :: printedDocuments rest
  | _ :: rest => printedDocuments rest

/-- The lines a trace logs with `log.Println(message)`, in order. -/
def loggedMessages : List Event → List String
  | [] => []
  | Event.log message :: rest => message :: loggedMessages rest
  | _ :: rest => loggedMessages rest

/-! ## `strconv.Itoa` -/

/-- The character of a decimal digit. -/
def digitChar (d : Nat) : Char := Char.ofNat (48 + d)

/-- The decimal digits of a natural number, most significant first. -/
def decimalDigits (n : Nat) : List Char := ((Nat.digits 10 n).reverse).map digitChar

/-- The function `strconv.Itoa`: the decimal rendering of an integer. -/
def Itoa (n : Int) : String :=
  if n < 0 then String.mk (Char.ofNat 45 :: decimalDigits n.natAbs)
  else if n = 0 then String.mk [Char.ofNat 48]
  else String.mk (decimalDigits n.natAbs)

/-! ## `fmt.Sprintf` -/

/-- The substitution `fmt.Sprintf` performs, on characters: each verb `%s` is replaced by
the next operand, copied as it is; the verb reports a missing operand when none is left.
The program uses no other verb and passes string operands only. -/
def sprintfChars : List Char → List String → List Char
  | [], _ => []
  | [c], _ => [c]
  | c :: d :: rest, args =>
    if c = Char.ofNat 37 ∧ d = Char.ofNat 115 then
      match args with
      | a :: more => a.data ++ sprintfChars rest more
      | [] => "%!s(MISSING)".data ++ sprintfChars rest []
    else c :: sprintfChars (d :: rest) args

/-- The function `fmt.Sprintf`, for the verb `%s` and string operands. -/
def Sprintf (format : String) (args : List String) : String :=
  String.mk (sprintfChars format.data args)

/-! ## Query payloads -/

/-- The constant `query` of `searchAllDocumentFromIndex`. -/
def matchAllQuery : String :=
  "\x7b \"query\":\x7b \n\t\t\t\t\"match_all\": \x7b\x7d \n               \x7d\n              \x7d"

/-- The `query` of `searchDocumentWithWildcardQuery`. -/
def wildcardQuery (fieldName matchQuery : String) : String :=
  Sprintf "\x7b\n\t\t\"query\": \x7b\n\t\t\t\"wildcard\": \x7b\n\t\t\t\t\"%s\": \"%s\"\n\t\t\t\x7d\n\t\t\x7d\n\t\x7d"
    [fieldName, matchQuery]

/-- The `query` of `searchDocumentWithMatchQuery`. -/
def matchQueryPayload (fieldName matchQuery : String) : String :=
  Sprintf "\x7b\n\t\t\"query\": \x7b\n\t\t\t\"match\": \x7b\n\t\t\t\t\"%s\": \"%s\"\n\t\t\t\x7d\n\t\t\x7d\n\t\x7d"
    [fieldName, matchQuery]

/-- The `query` of `searchDocumentWithTermQuery`. -/
def termQuery (fieldName matchQuery : String) : String :=
  Sprintf "\x7b\n\t\t\"query\": \x7b\n\t\t\t\"term\": \x7b\n\t\t\t\t\"%s.keyword\": \"%s\"\n\t\t\t\x7d\n\t\t\x7d\n\t\x7d"
    [fieldName, matchQuery]

/-- The `query` of `searchDocumentWithMultiMatch`. -/
def multiMatchQuery (fieldName fieldName2 fieldName3 matchQuery : String) : String :=
  Sprintf "\x7b\n\t\t\"query\": \x7b\n\t\t\t\"multi_match\": \x7b\n\t\t\t\t\"query\": \"%s\",\n\t\t\t\t\"fields\": [\"%s\", \"%s\", \"%s\"]\n\t\t\t\x7d\n\t\t\x7d\n\t\x7d"
    [matchQuery, fieldName, fieldName2, fieldName3]

/-! ## Operations -/

/-- The statement `data, _ := json.Marshal(doc)`: the error of `json.Marshal` is
discarded; `data` is nil, an empty body, when encoding fails. -/
def marshalDiscardingError (env : Env) (doc : ProductDocument) : String :=
  match env.marshalDocument doc with
  | Except.ok bytes => bytes
  | Except.error _ => ""

/-- The function `insertDocument`. -/
def insertDocument (env : Env) (doc : ProductDocument) : Run :=
  let data : String := marshalDiscardingError env doc
  let req := Request.index "my_products" data none
  match env.transport req with
  | Except.error err =>
    ⟨[Event.call req],
      Outcome.fatal "Error sending a post request to index a document to elasticsearch: "
        (Detail.err err)⟩
  | Except.ok indexResponse =>
    if indexResponse.IsError then
      ⟨[Event.call req],
        Outcome.fatal "Error inserting a document in elasticsearch (elasticsearch response): "
          (Detail.status indexResponse.StatusCode)⟩
    else
      ⟨[Event.call req, Event.log "Success to insert a document in elasticsearch"],
        Outcome.returned⟩

/-- The function `insertDocumentWithDocumentID`. -/
def insertDocumentWithDocumentID (env : Env) (indexName : String) (doc : ProductDocument) :
    Run :=
  let data : String := marshalDiscardingError env doc
  let req := Request.index indexName data (some (Itoa doc.Id))
  match env.transport req with
  | Except.error err =>
    ⟨[Event.call req],
      Outcome.fatal "Error sending a post request to index a document to elasticsearch: "
        (Detail.err err)⟩
  | Except.ok indexResponse =>
    if indexResponse.IsError then
      ⟨[Event.call req],
        Outcome.fatal "Error indexing a document in elasticsearch (elasticsearch response): "
          (Detail.status indexResponse.StatusCode)⟩
    else
      ⟨[Event.call req, Event.log "Success to index document in elasticsearch"],
        Outcome.returned⟩

/-- The function `getDocumentFromIndexByDocumentID`. -/
def getDocumentFromIndexByDocumentID (env : Env) (indexName : String) (productID : Int) :
    Run :=
  let req := Request.get indexName (Itoa productID)
  match env.transport req with
  | Except.error err =>
    ⟨[Event.call req],
      Outcome.fatal
        "Error sending a get request to get a document from index to elasticsearch: "
        (Detail.err err)⟩
  | Except.ok res =>
    if res.IsError then
      ⟨[Event.call req],
        Outcome.fatal "Error get a document in elasticsearch (elasticsearch response): "
          (Detail.status res.StatusCode)⟩
    else
      match env.decode res.Body with
      | Except.error err =>
        ⟨[Event.call req], Outcome.fatal "Error decode the response body: " (Detail.err err)⟩
      | Except.ok searchResult =>
        match assertMap (mapIndex searchResult "_source") with
        | none => ⟨[Event.call req], Outcome.panicked⟩
        | some source =>
          ⟨[Event.call req, Event.logDocument source,
              Event.log "Success to get getDocumentFromIndexByDocumentID"],
            Outcome.returned⟩

/-- The loop `for _, hit := range hits` of the search operations: the documents printed,
and whether the loop ran to its end (`false`: a type assertion in its body panicked). -/
def rangeHits : List JSON → List Event × Bool
  | [] => ([], true)
  | hit :: rest =>
    match assertMap hit with
    | none => ([], false)
    | some document =>
      match assertMap (mapIndex document "_source") with
      | none => ([], false)
      | some source =>
        (Event.printDocument source :: (rangeHits rest).1, (rangeHits rest).2)

/-- The body the five search operations share: send the query, check the reply, decode it,
walk `hits.hits`.  They differ in the query, in the message of a failed call
(`sendError`) and in the success message. -/
def searchWith (env : Env) (indexName query sendError success : String) : Run :=
  let req := Request.search indexName query
  match env.transport req with
  | Except.error err => ⟨[Event.call req], Outcome.fatal sendError (Detail.err err)⟩
  | Except.ok res =>
    if res.IsError then
      ⟨[Event.call req],
        Outcome.fatal "Error search a document in elasticsearch (elasticsearch response): "
          (Detail.status res.StatusCode)⟩
    else
      match env.decode res.Body with
      | Except.error err =>
        ⟨[Event.call req], Outcome.fatal "Error decode document: " (Detail.err err)⟩
      | Except.ok searchResult =>
        match assertMap (mapIndex searchResult "hits") with
        | none => ⟨[Event.call req], Outcome.panicked⟩
        | some outer =>
          match assertSlice (mapIndex outer "hits") with
          | none => ⟨[Event.call req], Outcome.panicked⟩
          | some hits =>
            if (rangeHits hits).2 then
              ⟨Event.call req :: ((rangeHits hits).1 ++ [Event.log success]),
                Outcome.returned⟩
            else
              ⟨Event.call req :: (rangeHits hits).1, Outcome.panicked⟩

/-- The function `searchAllDocumentFromIndex`. -/
def searchAllDocumentFromIndex (env : Env) (indexName : String) : Run :=
  searchWith env indexName matchAllQuery
    "Error sending a post/get request to search a document to elasticsearch: "
    "Success to searchAllDocumentFromIndex"

/-- The function `searchDocumentWithWildcardQuery`. -/
def searchDocumentWithWildcardQuery (env : Env) (indexName fieldName matchQuery : String) :
    Run :=
  searchWith env indexName (wildcardQuery fieldName matchQuery)
    "Error sending a post request to search a document to elasticsearch: "
    "Success to searchDocumentWithWildcardQuery"

/-- The function `searchDocumentWithMatchQuery`. -/
def searchDocumentWithMatchQuery (env : Env) (indexName fieldName matchQuery : String) :
    Run :=
  searchWith env indexName (matchQueryPayload fieldName matchQuery)
    "Error sending a post request to search a document to elasticsearch: "
    "Success to searchDocumentWithMatchQuery"

/-- The function `searchDocumentWithTermQuery`. -/
def searchDocumentWithTermQuery (env : Env) (indexName fieldName matchQuery : String) :
    Run :=
  searchWith env indexName (termQuery fieldName matchQuery)
    "Error sending a post request to search a document to elasticsearch: "
    "Success to searchDocumentWithTermQuery"

/-- The function `searchDocumentWithMultiMatch`. -/
def searchDocumentWithMultiMatch (env : Env)
    (indexName fieldName fieldName2 fieldName3 matchQuery : String) : Run :=
  searchWith env indexName (multiMatchQuery fieldName fieldName2 fieldName3 matchQuery)
    "Error sending a post request to search a document to elasticsearch: "
    "Success to searchDocumentWithMultiMatch"

/-- What a variable of type `map[string]interface{}` holds when it is an operand of
`json.Marshal`: a nil map (`none`) is encoded as `null`, a map as an object. -/
def mapValue : Option GoMap → JSON
  | none => JSON.null
  | some fields => JSON.object fields

/-- The value `map[string]interface{}{"doc": updatedFields}` that
`updateDocumentByDocumentID` encodes; `updatedFields` may be the nil map. -/
def updateEnvelope (updatedFields : Option GoMap) : GoMap := [("doc", mapValue updatedFields)]

/-- The function `updateDocumentByDocumentID`. -/
def updateDocumentByDocumentID (env : Env) (indexName : String) (documentID : Int)
    (updatedFields : Option GoMap) : Run :=
  match env.marshalMap (updateEnvelope updatedFields) with
  | Except.error err => ⟨[], Outcome.fatal "Error marshalling update data: " (Detail.err err)⟩
  | Except.ok data =>
    let req := Request.update indexName (Itoa documentID) data
    match env.transport req with
    | Except.error err =>
      ⟨[Event.call req],
        Outcome.fatal "Error sending a put/patch request to elasticsearch: " (Detail.err err)⟩
    | Except.ok res =>
      if res.IsError then
        ⟨[Event.call req],
          Outcome.fatal "Error updating document in elasticsearch (elasticsearch response): "
            (Detail.status res.StatusCode)⟩
      else
        ⟨[Event.call req, Event.log "Success to update document"], Outcome.returned⟩

/-- The map of the caller after `updateDocumentByDocumentID`, which is handed a reference
to it: the function has no assignment to an element of `updatedFields` and no `delete`,
and `json.Marshal` reads its operand only, so the map is the one that was passed. -/
def updatedFieldsAfterUpdate (_env : Env) (_indexName : String) (_documentID : Int)
    (updatedFields : Option GoMap) : Option GoMap :=
  updatedFields

/-- The function `deleteDocumentByDocumentID`. -/
def deleteDocumentByDocumentID (env : Env) (indexName : String) (documentID : Int) : Run :=
  let req := Request.delete indexName (Itoa documentID)
  match env.transport req with
  | Except.error err =>
    ⟨[Event.call req],
      Outcome.fatal "Error sending a delete request to elasticsearch: " (Detail.err err)⟩
  | Except.ok res =>
    if res.IsError then
      ⟨[Event.call req],
        Outcome.fatal "Error delete document in elasticsearch (elasticsearch response): "
          (Detail.status res.StatusCode)⟩
    else
      ⟨[Event.call req, Event.log "Success to delete document"], Outcome.returned⟩

/-- The ten operations of the program, each with its arguments. -/
inductive Operation where
  | insert (doc : ProductDocument)
  | insertWithID (indexName : String) (doc : ProductDocument)
  | get (indexName : String) (productID : Int)
  | searchAll (indexName : String)
  | searchWildcard (indexName fieldName matchQuery : String)
  | searchMatch (indexName fieldName matchQuery : String)
  | searchTerm (indexName fieldName matchQuery : String)
  | searchMultiMatch (indexName fieldName fieldName2 fieldName3 matchQuery : String)
  | update (indexName : String) (documentID : Int) (updatedFields : Option GoMap)
  | delete (indexName : String) (documentID : Int)

/-- Running an operation: the call of its function. -/
def Operation.run (env : Env) : Operation → Run
  | Operation.insert doc => insertDocument env doc
  | Operation.insertWithID indexName doc => insertDocumentWithDocumentID env indexName doc
  | Operation.get indexName productID => getDocumentFromIndexByDocumentID env indexName productID
  | Operation.searchAll indexName => searchAllDocumentFromIndex env indexName
  | Operation.searchWildcard indexName fieldName matchQuery =>
    searchDocumentWithWildcardQuery env indexName fieldName matchQuery
  | Operation.searchMatch indexName fieldName matchQuery =>
    searchDocumentWithMatchQuery env indexName fieldName matchQuery
  | Operation.searchTerm indexName fieldName matchQuery =>
    searchDocumentWithTermQuery env indexName fieldName matchQuery
  | Operation.searchMultiMatch indexName fieldName fieldName2 fieldName3 matchQuery =>
    searchDocumentWithMultiMatch env indexName fieldName fieldName2 fieldName3 matchQuery
  | Operation.update indexName documentID updatedFields =>
    updateDocumentByDocumentID env indexName documentID updatedFields
  | Operation.delete indexName documentID => deleteDocumentByDocumentID env indexName documentID

/-- The line an operation logs last when it succeeds. -/
def Operation.successMessage : Operation → String
  | Operation.insert _ => "Success to insert a document in elasticsearch"
  | Operation.insertWithID _ _ => "Success to index document in elasticsearch"
  | Operation.get _ _ => "Success to get getDocumentFromIndexByDocumentID"
  | Operation.searchAll _ => "Success to searchAllDocumentFromIndex"
  | Operation.searchWildcard _ _ _ => "Success to searchDocumentWithWildcardQuery"
  | Operation.searchMatch _ _ _ => "Success to searchDocumentWithMatchQuery"
  | Operation.searchTerm _ _ _ => "Success to searchDocumentWithTermQuery"
  | Operation.searchMultiMatch _ _ _ _ _ => "Success to searchDocumentWithMultiMatch"
  | Operation.update _ _ _ => "Success to update document"
  | Operation.delete _ _ => "Success to delete document"

/-- Whether the operation is one of the five searches. -/
def Operation.isSearch : Operation → Bool
  | Operation.searchAll _ => true
  | Operation.searchWildcard _ _ _ => true
  | Operation.searchMatch _ _ _ => true
  | Operation.searchTerm _ _ _ => true
  | Operation.searchMultiMatch _ _ _ _ _ => true
  | _ => false

/-- Whether the operation decodes the body of the reply: get and the searches. -/
def Operation.decodesBody : Operation → Bool
  | Operation.get _ _ => true
  | op => op.isSearch

/-! ## Shapes of a decoded reply -/

/-- The `_source` of a hit that is an object carrying an object-valued `_source`. -/
def hitSource (hit : JSON) : Option GoMap :=
  match assertMap hit with
  | none => none
  | some document => assertMap (mapIndex document "_source")

/-- The list `hits.hits` of a decoded search reply, when the nesting is there. -/
def hitsOf (searchResult : GoMap) : Option (List JSON) :=
  match assertMap (mapIndex searchResult "hits") with
  | none => none
  | some outer => assertSlice (mapIndex outer "hits")

/-- The sources of all hits, in order, when every hit has one. -/
def sourcesOf : List JSON → Option (List GoMap)
  | [] => some []
  | hit :: rest =>
    match hitSource hit, sourcesOf rest with
    | some source, some sources => some (source :: sources)
    | _, _ => none

/-- A decoded search reply has the expected nesting: `hits` is an object, its `hits` a list,
every hit an object with an object-valued `_source`. -/
def searchShape (searchResult : GoMap) : Bool :=
  match hitsOf searchResult with
  | none => false
  | some hits => (sourcesOf hits).isSome

/-- A decoded get reply has the expected nesting: `_source` is an object. -/
def getShape (searchResult : GoMap) : Bool :=
  (assertMap (mapIndex searchResult "_source")).isSome

/-- The nesting the operation expects of the decoded reply: get expects an object-valued
`_source`, a search the `hits.hits` list of hits with object-valued `_source`. -/
def Operation.expectsShape (op : Operation) (searchResult : GoMap) : Bool :=
  match op with
  | Operation.get _ _ => getShape searchResult
  | _ => searchShape searchResult

/-- Whether the operation targets a document that is expected to exist: get, update and
delete. -/
def Operation.targetsDocument : Operation → Bool
  | Operation.get _ _ => true
  | Operation.update _ _ _ => true
  | Operation.delete _ _ => true
  | _ => false

/-- The message of the `log.Fatalln` an operation reaches when the reply has an error
status. -/
def Operation.rejectionMessage : Operation → String
  | Operation.insert _ =>
    "Error inserting a document in elasticsearch (elasticsearch response): "
  | Operation.insertWithID _ _ =>
    "Error indexing a document in elasticsearch (elasticsearch response): "
  | Operation.get _ _ => "Error get a document in elasticsearch (elasticsearch response): "
  | Operation.update _ _ _ =>
    "Error updating document in elasticsearch (elasticsearch response): "
  | Operation.delete _ _ =>
    "Error delete document in elasticsearch (elasticsearch response): "
  | _ => "Error search a document in elasticsearch (elasticsearch response): "

/-- The environment in which `json.Marshal` of a document gives the empty encoding and no
error; the rest is that of `env`. -/
def withEmptyEncoding (env : Env) : Env :=
  ⟨env.transport, fun _ => Except.ok "", env.marshalMap, env.decode⟩

/-! ## Reading a JSON text

What a payload means to the service that receives it: the value a JSON text denotes
(RFC 8259).  The reader works on characters; `fuel` bounds the nesting and the number of
members read, and `parseJSON` supplies more than any text of that length can use. -/

/-- The insignificant whitespace of JSON: space, line feed, carriage return, tab. -/
def isWhitespace (c : Char) : Bool :=
  c = Char.ofNat 32 || c = Char.ofNat 10 || c = Char.ofNat 13 || c = Char.ofNat 9

/-- Drop leading whitespace. -/
def skipWhitespace : List Char → List Char
  | [] => []
  | c :: rest => if isWhitespace c then skipWhitespace rest else c :: rest

/-- The value of a hexadecimal digit. -/
def hexValue (c : Char) : Option Nat :=
  if 48 ≤ c.toNat ∧ c.toNat ≤ 57 then some (c.toNat - 48)
  else if 97 ≤ c.toNat ∧ c.toNat ≤ 102 then some (c.toNat - 87)
  else if 65 ≤ c.toNat ∧ c.toNat ≤ 70 then some (c.toNat - 55)
  else none

/-- The character a one-letter escape stands for: the letters allowed after a backslash
are the quote, the backslash, the slash, and `b`, `f`, `n`, `r`, `t`. -/
def unescape (c : Char) : Option Char :=
  if c = Char.ofNat 34 then some (Char.ofNat 34)
  else if c = Char.ofNat 92 then some (Char.ofNat 92)
  else if c = Char.ofNat 47 then some (Char.ofNat 47)
  else if c = Char.ofNat 98 then some (Char.ofNat 8)
  else if c = Char.ofNat 102 then some (Char.ofNat 12)
  else if c = Char.ofNat 110 then some (Char.ofNat 10)
  else if c = Char.ofNat 114 then some (Char.ofNat 13)
  else if c = Char.ofNat 116 then some (Char.ofNat 9)
  else none

/-- Read a string after its opening quote: the characters it denotes and what follows the
closing quote.  A control character, an unknown escape or a missing closing quote is an
error. -/
def readString : List Char → Option (List Char × List Char)
  | [] => none
  | c :: rest =>
    if c = Char.ofNat 34 then some ([], rest)
    else if c = Char.ofNat 92 then
      match rest with
      | [] => none
      | e :: rest2 =>
        if e = Char.ofNat 117 then
          match rest2 with
          | h1 :: h2 :: h3 :: h4 :: rest3 =>
            match hexValue h1, hexValue h2, hexValue h3, hexValue h4, readString rest3 with
            | some a, some b, some c4, some d, some (chars, after) =>
              some (Char.ofNat (((a * 16 + b) * 16 + c4) * 16 + d) :: chars, after)
            | _, _, _, _, _ => none
          | _ => none
        else
          match unescape e, readString rest2 with
          | some ch, some (chars, after) => some (ch :: chars, after)
          | _, _ => none
    else if c.toNat < 32 then none
    else
      match readString rest with
      | some (chars, after) => some (c :: chars, after)
      | none => none

/-- Whether the character is a decimal digit. -/
def isDigit (c : Char) : Bool := decide (48 ≤ c.toNat ∧ c.toNat ≤ 57)

/-- The leading decimal digits and what follows them. -/
def spanDigits : List Char → List Char × List Char
  | [] => ([], [])
  | c :: rest =>
    if isDigit c then ((c :: (spanDigits rest).1), (spanDigits rest).2) else ([], c :: rest)

/-- Read a number: an optional minus sign, an integer part without a superfluous leading
zero, an optional fraction and an optional exponent.  The number is kept as written. -/
def readNumber (cs : List Char) : Option (List Char × List Char) :=
  let (sign, afterSign) :=
    match cs with
    | c :: rest => if c = Char.ofNat 45 then ([c], rest) else ([], cs)
    | [] => ([], cs)
  let (intPart, afterInt) := spanDigits afterSign
  if intPart = [] then none
  else if intPart.head? = some (Char.ofNat 48) ∧ intPart.length ≠ 1 then none
  else
    let fraction : Option (List Char × List Char) :=
      match afterInt with
      | c :: rest =>
        if c = Char.ofNat 46 then
          if (spanDigits rest).1 = [] then none
          else some (c :: (spanDigits rest).1, (spanDigits rest).2)
        else some ([], afterInt)
      | [] => some ([], afterInt)
    match fraction with
    | none => none
    | some (fracPart, afterFrac) =>
      match afterFrac with
      | c :: rest =>
        if c = Char.ofNat 101 ∨ c = Char.ofNat 69 then
          let (expSign, afterExpSign) :=
            match rest with
            | d :: rest2 =>
              if d = Char.ofNat 43 ∨ d = Char.ofNat 45 then ([d], rest2) else ([], rest)
            | [] => ([], rest)
          if (spanDigits afterExpSign).1 = [] then none
          else
            some (sign ++ intPart ++ fracPart ++ (c :: expSign) ++ (spanDigits afterExpSign).1,
              (spanDigits afterExpSign).2)
        else some (sign ++ intPart ++ fracPart, afterFrac)
      | [] => some (sign ++ intPart ++ fracPart, afterFrac)

/-- Drop the given word from the front, when the text starts with it. -/
def dropWord : List Char → List Char → Option (List Char)
  | [], cs => some cs
  | _ :: _, [] => none
  | w :: word, c :: cs => if w = c then dropWord word cs else none

mutual

/-- Read one value: an object, an array, a string, a literal or a number. -/
def readValue : Nat → List Char → Option (JSON × List Char)
  | 0, _ => none
  | fuel + 1, cs =>
    match skipWhitespace cs with
    | [] => none
    | c :: rest =>
      if c = Char.ofNat 123 then
        match skipWhitespace rest with
        | [] => none
        | d :: rest2 =>
          if d = Char.ofNat 125 then some (JSON.object [], rest2)
          else
            match readMembers fuel (d :: rest2) with
            | some (fields, after) => some (JSON.object fields, after)
            | none => none
      else if c = Char.ofNat 91 then
        match skipWhitespace rest with
        | [] => none
        | d :: rest2 =>
          if d = Char.ofNat 93 then some (JSON.array [], rest2)
          else
            match readElements fuel (d :: rest2) with
            | some (items, after) => some (JSON.array items, after)
            | none => none
      else if c = Char.ofNat 34 then
        match readString rest with
        | some (chars, after) => some (JSON.string (String.mk chars), after)
        | none => none
      else if c = Char.ofNat 116 then
        match dropWord "true".data (c :: rest) with
        | some after => some (JSON.bool true, after)
        | none => none
      else if c = Char.ofNat 102 then
        match dropWord "false".data (c :: rest) with
        | some after => some (JSON.bool false, after)
        | none => none
      else if c = Char.ofNat 110 then
        match dropWord "null".data (c :: rest) with
        | some after => some (JSON.null, after)
        | none => none
      else
        match readNumber (c :: rest) with
        | some (literal, after) => some (JSON.number (String.mk literal), after)
        | none => none

/-- Read the members of an object, from the first key to the closing brace. -/
def readMembers : Nat → List Char → Option (List (String × JSON) × List Char)
  | 0, _ => none
  | fuel + 1, cs =>
    match skipWhitespace cs with
    | [] => none
    | c :: rest =>
      if c = Char.ofNat 34 then
        match readString rest with
        | none => none
        | some (key, afterKey) =>
          match skipWhitespace afterKey with
          | [] => none
          | colon :: afterColon =>
            if colon = Char.ofNat 58 then
              match readValue fuel afterColon with
              | none => none
              | some (value, afterValue) =>
                match skipWhitespace afterValue with
                | [] => none
                | e :: afterMember =>
                  if e = Char.ofNat 125 then some ([(String.mk key, value)], afterMember)
                  else if e = Char.ofNat 44 then
                    match readMembers fuel afterMember with
                    | some (fields, after) => some ((String.mk key, value) :: fields, after)
                    | none => none
                  else none
            else none
      else none

/-- Read the elements of an array, from the first element to the closing bracket. -/
def readElements : Nat → List Char → Option (List JSON × List Char)
  | 0, _ => none
  | fuel + 1, cs =>
    match readValue fuel cs with
    | none => none
    | some (value, afterValue) =>
      match skipWhitespace afterValue with
      | [] => none
      | e :: afterElement =>
        if e = Char.ofNat 93 then some ([value], afterElement)
        else if e = Char.ofNat 44 then
          match readElements fuel afterElement with
          | some (items, after) => some (value :: items, after)
          | none => none
        else none

end

/-- The value a JSON text denotes; `none` when the text is not well-formed JSON. -/
def parseJSON (text : String) : Option JSON :=
  match readValue (text.data.length + 1) text.data with
  | none => none
  | some (value, after) => if skipWhitespace after = [] then some value else none

/-- A character that stands for itself inside a JSON string: not the quote, not the
backslash, not a control character. -/
def plainChar (c : Char) : Bool :=
  decide (c ≠ Char.ofNat 34) && decide (c ≠ Char.ofNat 92) && decide (32 ≤ c.toNat)

/-- Characters that all stand for themselves inside a JSON string. -/
def plainChars : List Char → Bool
  | [] => true
  | c :: rest => plainChar c && plainChars rest

/-- A text that needs no escaping inside a JSON string: no quote, no backslash, no
control character. -/
def plainText (text : String) : Bool := plainChars text.data

/-! ## The contract of the encoder -/

/-- Two values are the same JSON value: equal scalars, arrays that agree position by
position, objects with the same keys that agree key by key; the order in which an object
lists its keys does not count. -/
inductive SameValue : JSON → JSON → Prop where
  | null : SameValue JSON.null JSON.null
  | bool (b : Bool) : SameValue (JSON.bool b) (JSON.bool b)
  | number (literal : String) : SameValue (JSON.number literal) (JSON.number literal)
  | string (s : String) : SameValue (JSON.string s) (JSON.string s)
  | array (xs ys : List JSON) :
    xs.length = ys.length →
    (∀ i, i < xs.length → SameValue (xs.getD i JSON.null) (ys.getD i JSON.null)) →
    SameValue (JSON.array xs) (JSON.array ys)
  | object (a b : GoMap) :
    (∀ key, key ∈ a.map Prod.fst ↔ key ∈ b.map Prod.fst) →
    (∀ key, SameValue (mapIndex a key) (mapIndex b key)) →
    SameValue (JSON.object a) (JSON.object b)

/-- The contract of `json.Marshal` on a map: the bytes it returns are a JSON text that
denotes an object listing the keys of the map, each as often as the map does, and holding
at each key the same value as the map. -/
def FaithfulEncoder (marshal : GoMap → Except String String) : Prop :=
  ∀ v data, marshal v = Except.ok data →
    ∃ w, parseJSON data = some (JSON.object w) ∧
      (w.map Prod.fst).Perm (v.map Prod.fst) ∧
      ∀ key, SameValue (mapIndex w key) (mapIndex v key)

/-- A sample encoder, the members of an object of strings: each member is written
`"key":"text"`, members are separated by a comma, the closing brace follows the last.
Only plain keys and plain texts are encoded. -/
def encodeStringMembers : GoMap → Option (List Char)
  | [] => none
  | (key, value) :: rest =>
    match value with
    | JSON.string text =>
      if plainText key && plainText text then
        match rest with
        | [] =>
          some (Char.ofNat 34 :: (key.data ++ Char.ofNat 34 :: Char.ofNat 58 :: Char.ofNat 34 ::
            (text.data ++ [Char.ofNat 34, Char.ofNat 125])))
        | _ :: _ =>
          match encodeStringMembers rest with
          | some more =>
            some (Char.ofNat 34 :: (key.data ++ Char.ofNat 34 :: Char.ofNat 58 ::
              Char.ofNat 34 :: (text.data ++ Char.ofNat 34 :: Char.ofNat 44 :: more)))
          | none => none
      else none
    | _ => none

/-- A sample encoder, an object of strings. -/
def encodeStringObject (fields : GoMap) : Option (List Char) :=
  match fields with
  | [] => some [Char.ofNat 123, Char.ofNat 125]
  | _ :: _ =>
    match encodeStringMembers fields with
    | some members => some (Char.ofNat 123 :: members)
    | none => none

/-- A sample encoder of maps: it encodes a map with one plain key whose value is `null`
or an object of plain strings, and fails on every other map. -/
def sampleMarshal (v : GoMap) : Except String String :=
  match v with
  | [(key, value)] =>
    if plainText key then
      match value with
      | JSON.null =>
        Except.ok (String.mk (Char.ofNat 123 :: Char.ofNat 34 :: (key.data ++
          Char.ofNat 34 :: Char.ofNat 58 :: "null\x7d".data)))
      | JSON.object fields =>
        match encodeStringObject fields with
        | some chars =>
          Except.ok (String.mk (Char.ofNat 123 :: Char.ofNat 34 :: (key.data ++
            Char.ofNat 34 :: Char.ofNat 58 :: (chars ++ [Char.ofNat 125]))))
        | none => Except.error "json: unsupported value"
      | _ => Except.error "json: unsupported value"
    else Except.error "json: unsupported value"
  | _ => Except.error "json: unsupported value"

/-- A sample environment that encodes maps with `sampleMarshal`; the service answers every
request with status 200. -/
def encodingEnv : Env :=
  ⟨fun _ => Except.ok ⟨200, ""⟩, fun _ => Except.ok "data", sampleMarshal, fun _ => Except.ok []⟩

/-! ## Failing fast -/

/-- An execution fails fast: a call of the client that fails, or is answered with an error
status, is the last thing the operation does before the process exits; the success
message is logged only after a call that succeeded with a status that is no error (and a
body that decoded, when `decodes` is set); the client is called at most once. -/
def FailsFast (env : Env) (success : String) (decodes : Bool) (r : Run) : Prop :=
  (∀ req e, req ∈ requestsOf r.trace → env.transport req = Except.error e →
      r.trace = [Event.call req] ∧ ∃ message, r.outcome = Outcome.fatal message (Detail.err e)) ∧
  (∀ req res, req ∈ requestsOf r.trace → env.transport req = Except.ok res →
      res.IsError = true →
      r.trace = [Event.call req] ∧
        ∃ message, r.outcome = Outcome.fatal message (Detail.status res.StatusCode)) ∧
  (success ∈ loggedMessages r.trace →
      r.outcome = Outcome.returned ∧
        ∃ req res, requestsOf r.trace = [req] ∧ env.transport req = Except.ok res ∧
          res.IsError = false ∧ (decodes = true → ∃ m, env.decode res.Body = Except.ok m)) ∧
  (requestsOf r.trace).length ≤ 1

/-! ## Sample inputs -/

/-- A reply with status 200 and an empty body. -/
def okResponse : Response := ⟨200, ""⟩

/-- A document is encodable: its price is finite and the year of each timestamp that is
set lies in 0..9999. -/
def encodable (doc : ProductDocument) : Bool :=
  (match doc.Price with
    | Float64.finite _ _ => true
    | _ => false) &&
  (match doc.Created_at with
    | none => true
    | some t => decide (0 ≤ t.year ∧ t.year ≤ 9999)) &&
  (match doc.Updated_at with
    | none => true
    | some t => decide (0 ≤ t.year ∧ t.year ≤ 9999))

/-- A sample environment: the service answers every request with status `code` and an
empty body, every body decodes to `decoded`, a document that is not encodable fails to
encode, and encodings are left abstract (the text `data`). -/
def sampleEnv (code : Nat) (decoded : GoMap) : Env :=
  ⟨fun _ => Except.ok ⟨code, ""⟩,
   fun doc => if encodable doc then Except.ok "data" else Except.error "json: unsupported value",
   fun _ => Except.ok "data",
   fun _ => Except.ok decoded⟩

/-- A sample environment whose transport fails. -/
def offlineEnv : Env :=
  ⟨fun _ => Except.error "connection refused",
   fun _ => Except.ok "data",
   fun _ => Except.ok "data",
   fun _ => Except.ok []⟩

/-- The document `main` builds, with a price that is not a number and the timestamps
left unset. -/
def nanDocument : ProductDocument :=
  ⟨1, "ea838b0c-a235-48c0-a84f-90a8aca284e2", "Martabak Manis", "Makanan", 10,
   Float64.nan, 10, "XXL", "Ready", "Martabak manis", none, none⟩

/-- A decoded search reply with two hits. -/
def twoHits : GoMap :=
  [("hits", JSON.object [("hits", JSON.array
      [JSON.object [("_id", JSON.string "1"), ("_source", JSON.object [("name", JSON.string "a")])],
       JSON.object [("_id", JSON.string "2"), ("_source", JSON.object [("name", JSON.string "b")])]])])]

/-! ## Lemmas on traces and on the hit loop -/

theorem printedDocuments_append (xs ys : List Event) :
    printedDocuments (xs ++ ys) = printedDocuments xs ++ printedDocuments ys := by
  induction xs with
  | nil => rfl
  | cons e rest ih => cases e <;> simp [printedDocuments, ih]

theorem loggedMessages_append (xs ys : List Event) :
    loggedMessages (xs ++ ys) = loggedMessages xs ++ loggedMessages ys := by
  induction xs with
  | nil => rfl
  | cons e rest ih => cases e <;> simp [loggedMessages, ih]

theorem requestsOf_append (xs ys : List Event) :
    requestsOf (xs ++ ys) = requestsOf xs ++ requestsOf ys := by
  induction xs with
  | nil => rfl
  | cons e rest ih => cases e <;> simp [requestsOf, ih]

/-- When every hit has a source the loop runs to its end and prints the sources in order. -/
theorem rangeHits_of_sources (hits : List JSON) (sources : List GoMap)
    (h : sourcesOf hits = some sources) :
    rangeHits hits = (sources.map Event.printDocument, true) := by
  induction hits generalizing sources with
  | nil =>
    simp only [sourcesOf, Option.some.injEq] at h
    subst h
    rfl
  | cons hit rest ih =>
    unfold sourcesOf hitSource at h
    unfold rangeHits
    cases hm : assertMap hit with
    | none => simp [hm] at h
    | some document =>
      simp only [hm] at h ⊢
      cases hs : assertMap (mapIndex document "_source") with
      | none => simp [hs] at h
      | some source =>
        simp only [hs] at h ⊢
        cases hr : sourcesOf rest with
        | none => simp [hr] at h
        | some more =>
          simp only [hr, Option.some.injEq] at h
          subst h
          simp [ih more hr]

/-- When some hit has no source the loop panics. -/
theorem rangeHits_of_no_sources (hits : List JSON) (h : sourcesOf hits = none) :
    (rangeHits hits).2 = false := by
  induction hits with
  | nil => simp [sourcesOf] at h
  | cons hit rest ih =>
    unfold sourcesOf hitSource at h
    unfold rangeHits
    cases hm : assertMap hit with
    | none => rfl
    | some document =>
      simp only [hm] at h ⊢
      cases hs : assertMap (mapIndex document "_source") with
      | none => rfl
      | some source =>
        simp only [hs] at h ⊢
        cases hr : sourcesOf rest with
        | none => exact ih hr
        | some more => simp [hr] at h

/-- The loop prints documents only. -/
theorem rangeHits_logs (hits : List JSON) : loggedMessages (rangeHits hits).1 = [] := by
  induction hits with
  | nil => rfl
  | cons hit rest ih =>
    unfold rangeHits
    cases hm : assertMap hit with
    | none => rfl
    | some document =>
      cases hs : assertMap (mapIndex document "_source") with
      | none => simp [hs, loggedMessages]
      | some source => simpa [hs, loggedMessages] using ih

/-- The loop calls the client never. -/
theorem rangeHits_requests (hits : List JSON) : requestsOf (rangeHits hits).1 = [] := by
  induction hits with
  | nil => rfl
  | cons hit rest ih =>
    unfold rangeHits
    cases hm : assertMap hit with
    | none => rfl
    | some document =>
      cases hs : assertMap (mapIndex document "_source") with
      | none => simp [hs, requestsOf]
      | some source => simpa [hs, requestsOf] using ih

theorem printedDocuments_map (sources : List GoMap) :
    printedDocuments (sources.map Event.printDocument) = sources := by
  induction sources with
  | nil => rfl
  | cons s rest ih => simp [printedDocuments, ih]

/-- The sources of the hits are as many as the hits, and the source at each position is
the source of the hit at that position. -/
theorem sourcesOf_positions (hits : List JSON) (sources : List GoMap)
    (h : sourcesOf hits = some sources) :
    sources.length = hits.length ∧
      ∀ i, i < hits.length → (hits[i]?).bind hitSource = sources[i]? := by
  induction hits generalizing sources with
  | nil =>
    simp only [sourcesOf, Option.some.injEq] at h
    subst h
    simp
  | cons hit rest ih =>
    unfold sourcesOf at h
    cases hs : hitSource hit with
    | none => simp [hs] at h
    | some source =>
      cases hr : sourcesOf rest with
      | none => simp [hs, hr] at h
      | some more =>
        simp only [hs, hr, Option.some.injEq] at h
        subst h
        obtain ⟨hlen, hpos⟩ := ih more hr
        refine ⟨by simp [hlen], ?_⟩
        intro i hi
        cases i with
        | zero => simp [hs]
        | succ j =>
          have hj : j < rest.length := by simpa using hi
          simpa using hpos j hj

/-- A search calls the client with its query, whatever the reply. -/
theorem searchWith_calls (env : Env) (indexName query sendError success : String) :
    Request.search indexName query ∈
      requestsOf (searchWith env indexName query sendError success).trace := by
  unfold searchWith
  simp only []
  split
  · simp [requestsOf]
  · split
    · simp [requestsOf]
    · split
      · simp [requestsOf]
      · split
        · simp [requestsOf]
        · split
          · simp [requestsOf]
          · split <;> simp [requestsOf]

/-- A search whose reply decodes to the expected nesting returns, having printed the
sources in order and logged its success message. -/
theorem searchWith_of_sources (env : Env) (indexName query sendError success : String)
    (res : Response) (searchResult : GoMap) (hits : List JSON) (sources : List GoMap)
    (hreply : env.transport (Request.search indexName query) = Except.ok res)
    (hstatus : res.IsError = false)
    (hdecode : env.decode res.Body = Except.ok searchResult)
    (hhits : hitsOf searchResult = some hits)
    (hsources : sourcesOf hits = some sources) :
    searchWith env indexName query sendError success =
      ⟨Event.call (Request.search indexName query) ::
          (sources.map Event.printDocument ++ [Event.log success]),
        Outcome.returned⟩ := by
  unfold hitsOf at hhits
  cases hm : assertMap (mapIndex searchResult "hits") with
  | none => simp [hm] at hhits
  | some outer =>
    simp only [hm] at hhits
    unfold searchWith
    simp [hreply, hstatus, hdecode, hm, hhits, rangeHits_of_sources hits sources hsources]

/-- A search whose reply decodes to something without the expected nesting panics, and
does not log its success message. -/
theorem searchWith_of_bad_shape (env : Env) (indexName query sendError success : String)
    (res : Response) (searchResult : GoMap)
    (hreply : env.transport (Request.search indexName query) = Except.ok res)
    (hstatus : res.IsError = false)
    (hdecode : env.decode res.Body = Except.ok searchResult)
    (hshape : searchShape searchResult = false) :
    (searchWith env indexName query sendError success).outcome = Outcome.panicked ∧
      loggedMessages (searchWith env indexName query sendError success).trace = [] := by
  unfold searchShape hitsOf at hshape
  unfold searchWith
  simp only [hreply, hstatus, hdecode, Bool.false_eq_true, if_false]
  cases hm : assertMap (mapIndex searchResult "hits") with
  | none => simp [loggedMessages]
  | some outer =>
    simp only [hm] at hshape ⊢
    cases hs : assertSlice (mapIndex outer "hits") with
    | none => simp [loggedMessages]
    | some hits =>
      simp only [hs] at hshape ⊢
      have hnone : sourcesOf hits = none := by
        cases h : sourcesOf hits with
        | none => rfl
        | some sources => simp [h] at hshape
      simp [rangeHits_of_no_sources hits hnone, loggedMessages, rangeHits_logs]

/-- The request of a search operation is in its trace, whatever the reply. -/
theorem Operation.run_search_shape (env : Env) (op : Operation) (h : op.isSearch = true) :
    ∃ indexName query sendError,
      op.run env = searchWith env indexName query sendError op.successMessage := by
  cases op <;> simp [Operation.isSearch] at h
  · exact ⟨_, _, _, rfl⟩
  · exact ⟨_, _, _, rfl⟩
  · exact ⟨_, _, _, rfl⟩
  · exact ⟨_, _, _, rfl⟩
  · exact ⟨_, _, _, rfl⟩

/-! ## C1: a well-formed search reply -/

/-- C1: when the reply of the service is not an error and decodes to an object whose
`hits.hits` is a list of `n` hits (`n` may be 0), each an object with an object-valued
`_source`, each of the five search operations returns normally, prints exactly the `n`
sources, the source of the hit at position `i` at position `i`, and logs its success
message. -/
theorem search_yields_sources_in_order (env : Env) (op : Operation) (res : Response)
    (searchResult : GoMap) (hits : List JSON) (sources : List GoMap)
    (hsearch : op.isSearch = true)
    (hreply : ∀ req, req ∈ requestsOf (op.run env).trace → env.transport req = Except.ok res)
    (hstatus : res.IsError = false)
    (hdecode : env.decode res.Body = Except.ok searchResult)
    (hhits : hitsOf searchResult = some hits)
    (hsources : sourcesOf hits = some sources) :
    (op.run env).outcome = Outcome.returned ∧
      printedDocuments (op.run env).trace = sources ∧
      sources.length = hits.length ∧
      (∀ i, i < hits.length → (hits[i]?).bind hitSource = sources[i]?) ∧
      loggedMessages (op.run env).trace = [op.successMessage] := by
  obtain ⟨indexName, query, sendError, hrun⟩ := Operation.run_search_shape env op hsearch
  have hcall := searchWith_calls env indexName query sendError op.successMessage
  rw [← hrun] at hcall
  have hok := hreply _ hcall
  have hresult := searchWith_of_sources env indexName query sendError op.successMessage res
    searchResult hits sources hok hstatus hdecode hhits hsources
  rw [← hrun] at hresult
  obtain ⟨hlen, hpos⟩ := sourcesOf_positions hits sources hsources
  refine ⟨by rw [hresult], ?_, hlen, hpos, ?_⟩
  · rw [hresult]
    simp [printedDocuments, printedDocuments_append, printedDocuments_map]
  · rw [hresult]
    have hnil : ∀ l : List GoMap, loggedMessages (l.map Event.printDocument) = [] := by
      intro l
      induction l with
      | nil => rfl
      | cons a rest ih => simpa [loggedMessages] using ih
    simp [loggedMessages, loggedMessages_append, hnil]

/-- C1, at a reply with two hits: the term search prints both sources in order. -/
theorem search_yields_sources_in_order_witness :
    (Operation.isSearch (Operation.searchTerm "products" "name" "Martabak Manis") = true ∧
      hitsOf twoHits = some
        [JSON.object [("_id", JSON.string "1"), ("_source", JSON.object [("name", JSON.string "a")])],
         JSON.object [("_id", JSON.string "2"), ("_source", JSON.object [("name", JSON.string "b")])]]) ∧
    ((Operation.run (sampleEnv 200 twoHits)
        (Operation.searchTerm "products" "name" "Martabak Manis")).outcome = Outcome.returned ∧
      printedDocuments (Operation.run (sampleEnv 200 twoHits)
        (Operation.searchTerm "products" "name" "Martabak Manis")).trace =
        [[("name", JSON.string "a")], [("name", JSON.string "b")]] ∧
      [[("name", JSON.string "a")], [("name", JSON.string "b")]].length =
        [JSON.object [("_id", JSON.string "1"), ("_source", JSON.object [("name", JSON.string "a")])],
         JSON.object [("_id", JSON.string "2"), ("_source", JSON.object [("name", JSON.string "b")])]].length ∧
      (∀ i, i < [JSON.object [("_id", JSON.string "1"), ("_source", JSON.object [("name", JSON.string "a")])],
         JSON.object [("_id", JSON.string "2"), ("_source", JSON.object [("name", JSON.string "b")])]].length →
        ([JSON.object [("_id", JSON.string "1"), ("_source", JSON.object [("name", JSON.string "a")])],
         JSON.object [("_id", JSON.string "2"), ("_source", JSON.object [("name", JSON.string "b")])]][i]?).bind
          hitSource =
        [[("name", JSON.string "a")], [("name", JSON.string "b")]][i]?) ∧
      loggedMessages (Operation.run (sampleEnv 200 twoHits)
        (Operation.searchTerm "products" "name" "Martabak Manis")).trace =
        [Operation.successMessage (Operation.searchTerm "products" "name" "Martabak Manis")]) :=
  ⟨⟨rfl, rfl⟩,
    search_yields_sources_in_order (sampleEnv 200 twoHits)
      (Operation.searchTerm "products" "name" "Martabak Manis") ⟨200, ""⟩ twoHits _ _
      rfl (fun _ _ => rfl) rfl rfl rfl rfl⟩

/-! ## C2: a reply without the expected nesting -/

/-- A get calls the client with the rendered id, whatever the reply. -/
theorem get_calls (env : Env) (indexName : String) (productID : Int) :
    Request.get indexName (Itoa productID) ∈
      requestsOf (getDocumentFromIndexByDocumentID env indexName productID).trace := by
  unfold getDocumentFromIndexByDocumentID
  simp only []
  split
  · simp [requestsOf]
  · split
    · simp [requestsOf]
    · split
      · simp [requestsOf]
      · split <;> simp [requestsOf]

/-- A get whose reply decodes to something without an object-valued `_source` panics, and
logs nothing. -/
theorem get_of_bad_shape (env : Env) (indexName : String) (productID : Int)
    (res : Response) (searchResult : GoMap)
    (hreply : env.transport (Request.get indexName (Itoa productID)) = Except.ok res)
    (hstatus : res.IsError = false)
    (hdecode : env.decode res.Body = Except.ok searchResult)
    (hshape : getShape searchResult = false) :
    (getDocumentFromIndexByDocumentID env indexName productID).outcome = Outcome.panicked ∧
      loggedMessages (getDocumentFromIndexByDocumentID env indexName productID).trace = [] := by
  unfold getShape at hshape
  unfold getDocumentFromIndexByDocumentID
  simp only [hreply, hstatus, hdecode, Bool.false_eq_true, if_false]
  cases hm : assertMap (mapIndex searchResult "_source") with
  | none => simp [loggedMessages]
  | some source => simp [hm] at hshape

/-- C2, refuted as stated: the service answers 200 and the body decodes to the empty
object (no `hits`, no `_source`); the search and the get do not end with a decoding
error, they panic at the type assertion. -/
theorem missing_nesting_panics :
    searchShape [] = false ∧
    (searchAllDocumentFromIndex (sampleEnv 200 []) "products").outcome = Outcome.panicked ∧
    getShape [] = false ∧
    (getDocumentFromIndexByDocumentID (sampleEnv 200 []) "products" 1).outcome =
      Outcome.panicked :=
  ⟨rfl, rfl, rfl, rfl⟩

/-- C2, amended: when the reply of the service is not an error and decodes to an object
that lacks the nesting the operation expects, get and each of the five searches end in a
runtime panic at the unchecked type assertion, not in a decoding error, and the success
message is not logged. -/
theorem malformed_reply_panics (env : Env) (op : Operation) (res : Response)
    (searchResult : GoMap)
    (hop : op.decodesBody = true)
    (hreply : ∀ req, req ∈ requestsOf (op.run env).trace → env.transport req = Except.ok res)
    (hstatus : res.IsError = false)
    (hdecode : env.decode res.Body = Except.ok searchResult)
    (hshape : op.expectsShape searchResult = false) :
    (op.run env).outcome = Outcome.panicked ∧
      (op.run env).outcome.exitCode = some 2 ∧
      loggedMessages (op.run env).trace = [] := by
  have key : (op.run env).outcome = Outcome.panicked ∧
      loggedMessages (op.run env).trace = [] := by
    cases hs : op.isSearch with
    | true =>
      obtain ⟨indexName, query, sendError, hrun⟩ := Operation.run_search_shape env op hs
      have hcall := searchWith_calls env indexName query sendError op.successMessage
      rw [← hrun] at hcall
      have hshape2 : searchShape searchResult = false := by
        cases op <;> simp_all [Operation.isSearch, Operation.expectsShape]
      have h := searchWith_of_bad_shape env indexName query sendError op.successMessage res
        searchResult (hreply _ hcall) hstatus hdecode hshape2
      rw [← hrun] at h
      exact h
    | false =>
      cases op <;> simp [Operation.isSearch, Operation.decodesBody] at hs hop
      case get indexName productID =>
        exact get_of_bad_shape env indexName productID res searchResult
          (hreply _ (get_calls env indexName productID)) hstatus hdecode hshape
  exact ⟨key.1, by rw [key.1]; rfl, key.2⟩

/-- C2 amended, at a reply whose second hit has no `_source`: the wildcard search
panics. -/
theorem malformed_reply_panics_witness :
    (Operation.expectsShape (Operation.searchWildcard "products" "name" "Mar*")
        [("hits", JSON.object [("hits", JSON.array
          [JSON.object [("_source", JSON.object [])], JSON.object [("_id", JSON.string "2")]])])]
        = false) ∧
    ((Operation.run
        (sampleEnv 200 [("hits", JSON.object [("hits", JSON.array
          [JSON.object [("_source", JSON.object [])], JSON.object [("_id", JSON.string "2")]])])])
        (Operation.searchWildcard "products" "name" "Mar*")).outcome = Outcome.panicked ∧
      (Operation.run
        (sampleEnv 200 [("hits", JSON.object [("hits", JSON.array
          [JSON.object [("_source", JSON.object [])], JSON.object [("_id", JSON.string "2")]])])])
        (Operation.searchWildcard "products" "name" "Mar*")).outcome.exitCode = some 2 ∧
      loggedMessages (Operation.run
        (sampleEnv 200 [("hits", JSON.object [("hits", JSON.array
          [JSON.object [("_source", JSON.object [])], JSON.object [("_id", JSON.string "2")]])])])
        (Operation.searchWildcard "products" "name" "Mar*")).trace = []) :=
  ⟨rfl,
    malformed_reply_panics
      (sampleEnv 200 [("hits", JSON.object [("hits", JSON.array
          [JSON.object [("_source", JSON.object [])], JSON.object [("_id", JSON.string "2")]])])])
      (Operation.searchWildcard "products" "name" "Mar*") ⟨200, ""⟩ _
      rfl (fun _ _ => rfl) rfl rfl rfl⟩

/-! ## C5: failures end the operation -/

/-- An execution that calls the client once fails fast when it does so for that call. -/
theorem failsFast_of_call (env : Env) (success : String) (decodes : Bool) (r : Run)
    (req : Request)
    (hreq : requestsOf r.trace = [req])
    (herr : ∀ e, env.transport req = Except.error e →
      r.trace = [Event.call req] ∧ ∃ message, r.outcome = Outcome.fatal message (Detail.err e))
    (hstatus : ∀ res, env.transport req = Except.ok res → res.IsError = true →
      r.trace = [Event.call req] ∧
        ∃ message, r.outcome = Outcome.fatal message (Detail.status res.StatusCode))
    (hsuccess : success ∈ loggedMessages r.trace →
      r.outcome = Outcome.returned ∧
        ∃ res, env.transport req = Except.ok res ∧ res.IsError = false ∧
          (decodes = true → ∃ m, env.decode res.Body = Except.ok m)) :
    FailsFast env success decodes r := by
  refine ⟨?_, ?_, ?_, ?_⟩
  · intro req2 e hmem ht
    rw [hreq, List.mem_singleton] at hmem
    subst hmem
    exact herr e ht
  · intro req2 res hmem ht hs
    rw [hreq, List.mem_singleton] at hmem
    subst hmem
    exact hstatus res ht hs
  · intro h
    obtain ⟨hout, res, ht, hs, hd⟩ := hsuccess h
    exact ⟨hout, req, res, hreq, ht, hs, hd⟩
  · rw [hreq]
    simp

/-- An execution that never calls the client and never logs the success message fails
fast. -/
theorem failsFast_of_no_call (env : Env) (success : String) (decodes : Bool) (r : Run)
    (hreq : requestsOf r.trace = []) (hlog : loggedMessages r.trace = []) :
    FailsFast env success decodes r := by
  refine ⟨?_, ?_, ?_, ?_⟩
  · intro req e hmem
    simp [hreq] at hmem
  · intro req res hmem
    simp [hreq] at hmem
  · intro h
    simp [hlog] at h
  · simp [hreq]

theorem deleteDocumentByDocumentID_failsFast (env : Env) (indexName : String)
    (documentID : Int) :
    FailsFast env "Success to delete document" false
      (deleteDocumentByDocumentID env indexName documentID) := by
  apply failsFast_of_call env _ _ _ (Request.delete indexName (Itoa documentID))
  all_goals unfold deleteDocumentByDocumentID
  all_goals simp only []
  all_goals cases ht : env.transport (Request.delete indexName (Itoa documentID)) with
    | error e => simp [requestsOf, loggedMessages]
    | ok res => cases hs : res.IsError <;> simp [requestsOf, loggedMessages, hs]

theorem insertDocument_failsFast (env : Env) (doc : ProductDocument) :
    FailsFast env "Success to insert a document in elasticsearch" false
      (insertDocument env doc) := by
  generalize hreq : Request.index "my_products" (marshalDiscardingError env doc) none = req
  apply failsFast_of_call env _ _ _ req
  all_goals unfold insertDocument
  all_goals simp only [hreq]
  all_goals cases ht : env.transport req with
    | error e => simp [requestsOf, loggedMessages]
    | ok res => cases hs : res.IsError <;> simp [requestsOf, loggedMessages, hs]

theorem insertDocumentWithDocumentID_failsFast (env : Env) (indexName : String)
    (doc : ProductDocument) :
    FailsFast env "Success to index document in elasticsearch" false
      (insertDocumentWithDocumentID env indexName doc) := by
  generalize hreq :
    Request.index indexName (marshalDiscardingError env doc) (some (Itoa doc.Id)) = req
  apply failsFast_of_call env _ _ _ req
  all_goals unfold insertDocumentWithDocumentID
  all_goals simp only [hreq]
  all_goals cases ht : env.transport req with
    | error e => simp [requestsOf, loggedMessages]
    | ok res => cases hs : res.IsError <;> simp [requestsOf, loggedMessages, hs]

theorem updateDocumentByDocumentID_failsFast (env : Env) (indexName : String)
    (documentID : Int) (updatedFields : Option GoMap) :
    FailsFast env "Success to update document" false
      (updateDocumentByDocumentID env indexName documentID updatedFields) := by
  cases hm : env.marshalMap (updateEnvelope updatedFields) with
  | error e =>
    apply failsFast_of_no_call
    all_goals unfold updateDocumentByDocumentID
    all_goals simp [hm, requestsOf, loggedMessages]
  | ok data =>
    generalize hreq : Request.update indexName (Itoa documentID) data = req
    apply failsFast_of_call env _ _ _ req
    all_goals unfold updateDocumentByDocumentID
    all_goals simp only [hm, hreq]
    all_goals cases ht : env.transport req with
      | error e => simp [requestsOf, loggedMessages]
      | ok res => cases hs : res.IsError <;> simp [requestsOf, loggedMessages, hs]

theorem getDocumentFromIndexByDocumentID_failsFast (env : Env) (indexName : String)
    (productID : Int) :
    FailsFast env "Success to get getDocumentFromIndexByDocumentID" true
      (getDocumentFromIndexByDocumentID env indexName productID) := by
  generalize hreq : Request.get indexName (Itoa productID) = req
  apply failsFast_of_call env _ _ _ req
  all_goals unfold getDocumentFromIndexByDocumentID
  all_goals simp only [hreq]
  all_goals cases ht : env.transport req with
    | error e => simp [requestsOf, loggedMessages]
    | ok res =>
      cases hs : res.IsError with
      | true => simp [requestsOf, loggedMessages, hs]
      | false =>
        cases hd : env.decode res.Body with
        | error e => simp [requestsOf, loggedMessages, hs, hd]
        | ok searchResult =>
          cases hm : assertMap (mapIndex searchResult "_source") <;>
            simp [requestsOf, loggedMessages, hs, hd, hm]

theorem searchWith_failsFast (env : Env) (indexName query sendError success : String) :
    FailsFast env success true (searchWith env indexName query sendError success) := by
  generalize hreq : Request.search indexName query = req
  apply failsFast_of_call env _ _ _ req
  all_goals unfold searchWith
  all_goals simp only [hreq]
  all_goals cases ht : env.transport req with
    | error e => simp [requestsOf, loggedMessages]
    | ok res =>
      cases hs : res.IsError with
      | true => simp [requestsOf, loggedMessages, hs]
      | false =>
        cases hd : env.decode res.Body with
        | error e => simp [requestsOf, loggedMessages, hs, hd]
        | ok searchResult =>
          cases hm : assertMap (mapIndex searchResult "hits") with
          | none => simp [requestsOf, loggedMessages, hs, hd, hm]
          | some outer =>
            cases hh : assertSlice (mapIndex outer "hits") with
            | none => simp [requestsOf, loggedMessages, hs, hd, hm, hh]
            | some hits =>
              cases hr : (rangeHits hits).2 <;>
                simp [requestsOf, loggedMessages, requestsOf_append, loggedMessages_append,
                  rangeHits_requests, rangeHits_logs, hs, hd, hm, hh, hr]

theorem Operation.run_failsFast (env : Env) (op : Operation) :
    FailsFast env op.successMessage op.decodesBody (op.run env) := by
  cases op with
  | insert doc => exact insertDocument_failsFast env doc
  | insertWithID indexName doc => exact insertDocumentWithDocumentID_failsFast env indexName doc
  | get indexName productID =>
    exact getDocumentFromIndexByDocumentID_failsFast env indexName productID
  | searchAll indexName => exact searchWith_failsFast env _ _ _ _
  | searchWildcard indexName fieldName matchQuery => exact searchWith_failsFast env _ _ _ _
  | searchMatch indexName fieldName matchQuery => exact searchWith_failsFast env _ _ _ _
  | searchTerm indexName fieldName matchQuery => exact searchWith_failsFast env _ _ _ _
  | searchMultiMatch indexName fieldName fieldName2 fieldName3 matchQuery =>
    exact searchWith_failsFast env _ _ _ _
  | update indexName documentID updatedFields =>
    exact updateDocumentByDocumentID_failsFast env indexName documentID updatedFields
  | delete indexName documentID => exact deleteDocumentByDocumentID_failsFast env indexName documentID

/-- C5: for each of the ten operations, a call of the client that returns an error, or a
reply with an error status, is the last thing the operation does: the process exits
through `log.Fatalln` (status 1) carrying that error or status, and nothing is logged
with `log.Println`; the success message is logged only when the operation returned after
a call that succeeded with a status that is no error and, for get and the searches, a
body that decoded; and the client is called at most once (no retry). -/
theorem failure_ends_operation (env : Env) (op : Operation) :
    (∀ req e, req ∈ requestsOf (op.run env).trace → env.transport req = Except.error e →
        (op.run env).trace = [Event.call req] ∧
        loggedMessages (op.run env).trace = [] ∧
        (op.run env).outcome.exitCode = some 1 ∧
        ∃ message, (op.run env).outcome = Outcome.fatal message (Detail.err e)) ∧
    (∀ req res, req ∈ requestsOf (op.run env).trace → env.transport req = Except.ok res →
        res.IsError = true →
        (op.run env).trace = [Event.call req] ∧
        loggedMessages (op.run env).trace = [] ∧
        (op.run env).outcome.exitCode = some 1 ∧
        ∃ message, (op.run env).outcome = Outcome.fatal message (Detail.status res.StatusCode)) ∧
    (op.successMessage ∈ loggedMessages (op.run env).trace →
        (op.run env).outcome = Outcome.returned ∧
        ∃ req res, requestsOf (op.run env).trace = [req] ∧
          env.transport req = Except.ok res ∧ res.IsError = false ∧
          (op.decodesBody = true → ∃ m, env.decode res.Body = Except.ok m)) ∧
    (requestsOf (op.run env).trace).length ≤ 1 := by
  obtain ⟨h1, h2, h3, h4⟩ := Operation.run_failsFast env op
  refine ⟨?_, ?_, h3, h4⟩
  · intro req e hmem ht
    obtain ⟨htrace, message, hout⟩ := h1 req e hmem ht
    refine ⟨htrace, ?_, ?_, message, hout⟩
    · rw [htrace]; rfl
    · rw [hout]; rfl
  · intro req res hmem ht hs
    obtain ⟨htrace, message, hout⟩ := h2 req res hmem ht hs
    refine ⟨htrace, ?_, ?_, message, hout⟩
    · rw [htrace]; rfl
    · rw [hout]; rfl

/-- C5, at a client that cannot reach the service: the delete ends at its one call, with
the error of the call, and logs nothing. -/
theorem failure_ends_operation_witness :
    (Operation.run offlineEnv (Operation.delete "products" 1)).trace =
        [Event.call (Request.delete "products" (Itoa 1))] ∧
      loggedMessages (Operation.run offlineEnv (Operation.delete "products" 1)).trace = [] ∧
      (Operation.run offlineEnv (Operation.delete "products" 1)).outcome.exitCode = some 1 ∧
      ∃ message, (Operation.run offlineEnv (Operation.delete "products" 1)).outcome =
        Outcome.fatal message (Detail.err "connection refused") :=
  (failure_ends_operation offlineEnv (Operation.delete "products" 1)).1
    (Request.delete "products" (Itoa 1)) "connection refused"
    (by simp [Operation.run, deleteDocumentByDocumentID, offlineEnv, requestsOf]) rfl

/-! ## C6: an error status on get, update and delete -/

/-- C6, refuted as stated: get, update and delete answered with status 404 end exactly as
they do when answered with status 500, through the same `log.Fatalln` with the same
message and exit status; only the status passed through differs. -/
theorem not_found_is_not_distinguished :
    ((getDocumentFromIndexByDocumentID (sampleEnv 404 []) "products" 1).outcome =
        Outcome.fatal "Error get a document in elasticsearch (elasticsearch response): "
          (Detail.status 404) ∧
      (getDocumentFromIndexByDocumentID (sampleEnv 500 []) "products" 1).outcome =
        Outcome.fatal "Error get a document in elasticsearch (elasticsearch response): "
          (Detail.status 500) ∧
      (getDocumentFromIndexByDocumentID (sampleEnv 404 []) "products" 1).outcome.failureKind =
        (getDocumentFromIndexByDocumentID (sampleEnv 500 []) "products" 1).outcome.failureKind) ∧
    ((updateDocumentByDocumentID (sampleEnv 404 []) "products" 1 (some [])).outcome.failureKind =
        (updateDocumentByDocumentID (sampleEnv 500 []) "products" 1
          (some [])).outcome.failureKind) ∧
    ((deleteDocumentByDocumentID (sampleEnv 404 []) "products" 1).outcome.failureKind =
        (deleteDocumentByDocumentID (sampleEnv 500 []) "products" 1).outcome.failureKind) :=
  ⟨⟨rfl, rfl, rfl⟩, rfl, rfl⟩

/-- C6, amended: get, update and delete whose call is answered with any error status,
not-found included, end the process through the operation's one `log.Fatalln` for a
rejected request, with the operation's fixed message and the status of the reply; the
kind of failure (exit status and message) is the same for every error status. -/
theorem error_status_is_one_failure (env : Env) (op : Operation) (res : Response)
    (hop : op.targetsDocument = true)
    (hreply : ∃ req, req ∈ requestsOf (op.run env).trace ∧ env.transport req = Except.ok res)
    (hstatus : res.IsError = true) :
    (op.run env).outcome = Outcome.fatal op.rejectionMessage (Detail.status res.StatusCode) ∧
      (op.run env).outcome.failureKind = some (1, op.rejectionMessage) := by
  have key : (op.run env).outcome =
      Outcome.fatal op.rejectionMessage (Detail.status res.StatusCode) := by
    obtain ⟨req, hmem, ht⟩ := hreply
    cases op <;> simp [Operation.targetsDocument] at hop
    case get indexName productID =>
      simp only [Operation.run, Operation.rejectionMessage] at hmem ⊢
      unfold getDocumentFromIndexByDocumentID at hmem ⊢
      simp only [] at hmem ⊢
      cases ht2 : env.transport (Request.get indexName (Itoa productID)) with
      | error e =>
        simp only [ht2, requestsOf, List.mem_singleton] at hmem
        subst hmem
        simp [ht2] at ht
      | ok res2 =>
        cases hs : res2.IsError with
        | true =>
          simp only [ht2, hs, if_true, requestsOf, List.mem_singleton] at hmem
          subst hmem
          rw [ht2] at ht
          cases ht
          simp [hs]
        | false =>
          have hone : req = Request.get indexName (Itoa productID) := by
            simp only [ht2, hs, Bool.false_eq_true, if_false] at hmem
            revert hmem
            cases hd : env.decode res2.Body with
            | error e => simp [requestsOf]
            | ok searchResult =>
              cases hm : assertMap (mapIndex searchResult "_source") <;>
                simp [hm, requestsOf]
          subst hone
          rw [ht2] at ht
          cases ht
          simp [hs] at hstatus
    case update indexName documentID updatedFields =>
      simp only [Operation.run, Operation.rejectionMessage] at hmem ⊢
      unfold updateDocumentByDocumentID at hmem ⊢
      cases hm : env.marshalMap (updateEnvelope updatedFields) with
      | error e => simp [hm, requestsOf] at hmem
      | ok data =>
        simp only [hm] at hmem ⊢
        cases ht2 : env.transport (Request.update indexName (Itoa documentID) data) with
        | error e =>
          simp only [ht2, requestsOf, List.mem_singleton] at hmem
          subst hmem
          simp [ht2] at ht
        | ok res2 =>
          cases hs : res2.IsError with
          | true =>
            simp only [ht2, hs, if_true, requestsOf, List.mem_singleton] at hmem
            subst hmem
            rw [ht2] at ht
            cases ht
            simp [hs]
          | false =>
            simp only [ht2, hs, Bool.false_eq_true, if_false, requestsOf,
              List.mem_singleton] at hmem
            subst hmem
            rw [ht2] at ht
            cases ht
            simp [hs] at hstatus
    case delete indexName documentID =>
      simp only [Operation.run, Operation.rejectionMessage] at hmem ⊢
      unfold deleteDocumentByDocumentID at hmem ⊢
      simp only [] at hmem ⊢
      cases ht2 : env.transport (Request.delete indexName (Itoa documentID)) with
      | error e =>
        simp only [ht2, requestsOf, List.mem_singleton] at hmem
        subst hmem
        simp [ht2] at ht
      | ok res2 =>
        cases hs : res2.IsError with
        | true =>
          simp only [ht2, hs, if_true, requestsOf, List.mem_singleton] at hmem
          subst hmem
          rw [ht2] at ht
          cases ht
          simp [hs]
        | false =>
          simp only [ht2, hs, Bool.false_eq_true, if_false, requestsOf,
            List.mem_singleton] at hmem
          subst hmem
          rw [ht2] at ht
          cases ht
          simp [hs] at hstatus
  exact ⟨key, by rw [key]; rfl⟩

/-- C6 amended, at a delete answered with status 404. -/
theorem error_status_is_one_failure_witness :
    (Operation.targetsDocument (Operation.delete "products" 1) = true ∧
      Response.IsError ⟨404, ""⟩ = true) ∧
    ((Operation.run (sampleEnv 404 []) (Operation.delete "products" 1)).outcome =
        Outcome.fatal (Operation.rejectionMessage (Operation.delete "products" 1))
          (Detail.status (Response.StatusCode ⟨404, ""⟩)) ∧
      (Operation.run (sampleEnv 404 []) (Operation.delete "products" 1)).outcome.failureKind =
        some (1, Operation.rejectionMessage (Operation.delete "products" 1))) :=
  ⟨⟨rfl, rfl⟩,
    error_status_is_one_failure (sampleEnv 404 []) (Operation.delete "products" 1) ⟨404, ""⟩
      rfl ⟨Request.delete "products" (Itoa 1), by simp [Operation.run,
        deleteDocumentByDocumentID, sampleEnv, Response.IsError, requestsOf], rfl⟩ rfl⟩

/-! ## C4: a document that does not encode -/

/-- C4, on the code: when `json.Marshal` fails on the document, `insertDocument` and
`insertDocumentWithDocumentID` still call the client, with an empty body, and run exactly
as if the document had encoded to nothing: the encoding error is discarded. -/
theorem insert_discards_encoding_error (env : Env) (indexName : String)
    (doc : ProductDocument) (e : String)
    (hfail : env.marshalDocument doc = Except.error e) :
    requestsOf (insertDocument env doc).trace = [Request.index "my_products" "" none] ∧
      requestsOf (insertDocumentWithDocumentID env indexName doc).trace =
        [Request.index indexName "" (some (Itoa doc.Id))] ∧
      (insertDocument env doc).trace = (insertDocument (withEmptyEncoding env) doc).trace ∧
      (insertDocument env doc).outcome = (insertDocument (withEmptyEncoding env) doc).outcome ∧
      (insertDocumentWithDocumentID env indexName doc).trace =
        (insertDocumentWithDocumentID (withEmptyEncoding env) indexName doc).trace ∧
      (insertDocumentWithDocumentID env indexName doc).outcome =
        (insertDocumentWithDocumentID (withEmptyEncoding env) indexName doc).outcome := by
  have hdata : marshalDiscardingError env doc = "" := by
    unfold marshalDiscardingError
    rw [hfail]
  have hdata2 : marshalDiscardingError (withEmptyEncoding env) doc = "" := rfl
  have ht : (withEmptyEncoding env).transport = env.transport := rfl
  refine ⟨?_, ?_, ?_, ?_, ?_, ?_⟩
  · unfold insertDocument
    simp only [hdata]
    cases env.transport (Request.index "my_products" "" none) with
    | error err => simp [requestsOf]
    | ok res => cases hs : res.IsError <;> simp [requestsOf, hs]
  · unfold insertDocumentWithDocumentID
    simp only [hdata]
    cases env.transport (Request.index indexName "" (some (Itoa doc.Id))) with
    | error err => simp [requestsOf]
    | ok res => cases hs : res.IsError <;> simp [requestsOf, hs]
  · unfold insertDocument
    simp only [hdata, hdata2, ht]
  · unfold insertDocument
    simp only [hdata, hdata2, ht]
  · unfold insertDocumentWithDocumentID
    simp only [hdata, hdata2, ht]
  · unfold insertDocumentWithDocumentID
    simp only [hdata, hdata2, ht]

/-- C4, at the document whose price is not a number, with a service that accepts the
request: the empty body is sent. -/
theorem insert_discards_encoding_error_witness :
    (sampleEnv 200 []).marshalDocument nanDocument = Except.error "json: unsupported value" ∧
    (requestsOf (insertDocument (sampleEnv 200 []) nanDocument).trace =
        [Request.index "my_products" "" none] ∧
      requestsOf (insertDocumentWithDocumentID (sampleEnv 200 []) "products" nanDocument).trace =
        [Request.index "products" "" (some (Itoa nanDocument.Id))] ∧
      (insertDocument (sampleEnv 200 []) nanDocument).trace =
        (insertDocument (withEmptyEncoding (sampleEnv 200 [])) nanDocument).trace ∧
      (insertDocument (sampleEnv 200 []) nanDocument).outcome =
        (insertDocument (withEmptyEncoding (sampleEnv 200 [])) nanDocument).outcome ∧
      (insertDocumentWithDocumentID (sampleEnv 200 []) "products" nanDocument).trace =
        (insertDocumentWithDocumentID (withEmptyEncoding (sampleEnv 200 [])) "products"
          nanDocument).trace ∧
      (insertDocumentWithDocumentID (sampleEnv 200 []) "products" nanDocument).outcome =
        (insertDocumentWithDocumentID (withEmptyEncoding (sampleEnv 200 [])) "products"
          nanDocument).outcome) :=
  ⟨rfl, insert_discards_encoding_error (sampleEnv 200 []) "products" nanDocument
    "json: unsupported value" rfl⟩

/-! ## The term payload and the requests of a search -/

/-- The characters of a term payload: the template with the field name and the text
copied in. -/
theorem termQuery_data (fieldName matchQuery : String) :
    (termQuery fieldName matchQuery).data =
      "\x7b\n\t\t\"query\": \x7b\n\t\t\t\"term\": \x7b\n\t\t\t\t\"".data ++
        (fieldName.data ++ (".keyword\": \"".data ++
          (matchQuery.data ++ "\"\n\t\t\t\x7d\n\t\t\x7d\n\t\x7d".data))) :=
  rfl

/-- A search calls the client exactly once, with its query. -/
theorem searchWith_requests (env : Env) (indexName query sendError success : String) :
    requestsOf (searchWith env indexName query sendError success).trace =
      [Request.search indexName query] := by
  unfold searchWith
  simp only []
  cases ht : env.transport (Request.search indexName query) with
  | error e => simp [requestsOf]
  | ok res =>
    cases hs : res.IsError with
    | true => simp [requestsOf, hs]
    | false =>
      cases hd : env.decode res.Body with
      | error e => simp [requestsOf, hs, hd]
      | ok searchResult =>
        cases hm : assertMap (mapIndex searchResult "hits") with
        | none => simp [requestsOf, hs, hd, hm]
        | some outer =>
          cases hh : assertSlice (mapIndex outer "hits") with
          | none => simp [requestsOf, hs, hd, hm, hh]
          | some hits =>
            cases hr : (rangeHits hits).2 <;>
              simp [requestsOf, requestsOf_append, rangeHits_requests, hs, hd, hm, hh, hr]

/-! ## C10: document addressing -/

theorem digitChar_toNat (d : Nat) (h : d < 10) : (digitChar d).toNat = 48 + d := by
  interval_cases d <;> rfl

theorem decimalDigits_toNat (n : Nat) :
    (decimalDigits n).map Char.toNat = ((Nat.digits 10 n).reverse).map (fun d => 48 + d) := by
  unfold decimalDigits
  rw [List.map_map]
  apply List.map_congr_left
  intro d hd
  have hlt : d < 10 := Nat.digits_lt_base (by norm_num) (List.mem_reverse.mp hd)
  exact digitChar_toNat d hlt

theorem decimalDigits_injective (a b : Nat) (h : decimalDigits a = decimalDigits b) :
    a = b := by
  have h2 := congrArg (List.map Char.toNat) h
  rw [decimalDigits_toNat, decimalDigits_toNat] at h2
  have hinj : Function.Injective (fun d : Nat => 48 + d) := fun x y hxy => by
    simpa using hxy
  have h3 := List.map_injective_iff.mpr hinj h2
  have h4 := List.reverse_injective h3
  exact Nat.digits.injective 10 h4

/-- No rendering of a natural number starts with the minus sign. -/
theorem decimalDigits_no_sign (n : Nat) (rest : List Char) :
    decimalDigits n ≠ Char.ofNat 45 :: rest := by
  intro h
  have h2 := congrArg (List.map Char.toNat) h
  rw [decimalDigits_toNat] at h2
  cases hr : (Nat.digits 10 n).reverse with
  | nil => simp [hr] at h2
  | cons d ds =>
    rw [hr] at h2
    simp only [List.map_cons, List.cons.injEq] at h2
    have h45 : (Char.ofNat 45).toNat = 45 := rfl
    omega

/-- The rendering of a positive natural number is not the single digit zero. -/
theorem decimalDigits_ne_zero (n : Nat) (hn : n ≠ 0) :
    decimalDigits n ≠ [Char.ofNat 48] := by
  intro h
  have h2 := congrArg (List.map Char.toNat) h
  rw [decimalDigits_toNat] at h2
  have h48 : (Char.ofNat 48).toNat = 48 := rfl
  cases hr : (Nat.digits 10 n).reverse with
  | nil => simp [hr] at h2
  | cons d ds =>
    rw [hr] at h2
    simp only [List.map_cons, List.map_nil, List.cons.injEq, h48] at h2
    obtain ⟨hd, hds⟩ := h2
    have hds2 : ds = [] := by simpa using hds
    have hd0 : d = 0 := by omega
    subst hds2 hd0
    have hdig : Nat.digits 10 n = [0] := by
      have := congrArg List.reverse hr
      simpa using this
    have hof := Nat.ofDigits_digits 10 n
    rw [hdig] at hof
    simp [Nat.ofDigits] at hof
    exact hn hof.symm

theorem Itoa_data (n : Int) :
    (Itoa n).data =
      if n < 0 then Char.ofNat 45 :: decimalDigits n.natAbs
      else if n = 0 then [Char.ofNat 48]
      else decimalDigits n.natAbs := by
  unfold Itoa
  split_ifs <;> rfl

/-- The function `strconv.Itoa` is injective. -/
theorem Itoa_injective (a b : Int) (h : Itoa a = Itoa b) : a = b := by
  have hzero : Char.ofNat 45 ≠ Char.ofNat 48 := by decide
  have h := congrArg String.data h
  rw [Itoa_data, Itoa_data] at h
  split_ifs at h with ha hb hb0 hb ha0 hb0 hb0
  · have := decimalDigits_injective _ _ (List.cons.inj h).2
    omega
  · exact absurd (List.cons.inj h).1 hzero
  · exact absurd h.symm (decimalDigits_no_sign _ _)
  · exact absurd (List.cons.inj h).1 hzero.symm
  · omega
  · have hne : b.natAbs ≠ 0 := by omega
    exact absurd h.symm (decimalDigits_ne_zero _ hne)
  · exact absurd h (decimalDigits_no_sign _ _)
  · have hne : a.natAbs ≠ 0 := by omega
    exact absurd h (decimalDigits_ne_zero _ hne)
  · have := decimalDigits_injective _ _ h
    omega

theorem Itoa_samples :
    Itoa 1 = "1" ∧ Itoa 0 = "0" ∧ Itoa (-305) = "-305" ∧ Itoa 2024 = "2024" := by
  refine ⟨?_, ?_, ?_, ?_⟩ <;> apply String.ext <;> rw [Itoa_data] <;>
    simp [decimalDigits, digitChar]

/-- C10: for every integer id (here the `Id` of the document), the request of
`insertDocumentWithDocumentID`, of `getDocumentFromIndexByDocumentID`, of
`updateDocumentByDocumentID` (it sends one when the fields encode) and of
`deleteDocumentByDocumentID` is addressed to the same document-id string, `strconv.Itoa`
of the id, and two different integers never give the same string. -/
theorem addressing_is_consistent_and_injective (env : Env) (indexName : String)
    (doc : ProductDocument) (m : Option GoMap) :
    (requestsOf (insertDocumentWithDocumentID env indexName doc).trace).map
        Request.documentID? = [some (Itoa doc.Id)] ∧
      (requestsOf (getDocumentFromIndexByDocumentID env indexName doc.Id).trace).map
        Request.documentID? = [some (Itoa doc.Id)] ∧
      (∀ req, req ∈ requestsOf (updateDocumentByDocumentID env indexName doc.Id m).trace →
        req.documentID? = some (Itoa doc.Id)) ∧
      (∀ data, env.marshalMap (updateEnvelope m) = Except.ok data →
        (requestsOf (updateDocumentByDocumentID env indexName doc.Id m).trace).map
          Request.documentID? = [some (Itoa doc.Id)]) ∧
      (requestsOf (deleteDocumentByDocumentID env indexName doc.Id).trace).map
        Request.documentID? = [some (Itoa doc.Id)] ∧
      (∀ a b : Int, a ≠ b → Itoa a ≠ Itoa b) := by
  have hupdate : ∀ data, env.marshalMap (updateEnvelope m) = Except.ok data →
      requestsOf (updateDocumentByDocumentID env indexName doc.Id m).trace =
        [Request.update indexName (Itoa doc.Id) data] := by
    intro data hdata
    unfold updateDocumentByDocumentID
    simp only [hdata]
    cases env.transport (Request.update indexName (Itoa doc.Id) data) with
    | error err => simp [requestsOf]
    | ok res => cases hs : res.IsError <;> simp [requestsOf, hs]
  refine ⟨?_, ?_, ?_, ?_, ?_, ?_⟩
  · unfold insertDocumentWithDocumentID
    simp only []
    cases env.transport
        (Request.index indexName (marshalDiscardingError env doc) (some (Itoa doc.Id))) with
    | error err => simp [requestsOf, Request.documentID?]
    | ok res => cases hs : res.IsError <;> simp [requestsOf, Request.documentID?, hs]
  · unfold getDocumentFromIndexByDocumentID
    simp only []
    cases env.transport (Request.get indexName (Itoa doc.Id)) with
    | error err => simp [requestsOf, Request.documentID?]
    | ok res =>
      cases hs : res.IsError with
      | true => simp [requestsOf, Request.documentID?, hs]
      | false =>
        cases hd : env.decode res.Body with
        | error e => simp [requestsOf, Request.documentID?, hs, hd]
        | ok searchResult =>
          cases hm : assertMap (mapIndex searchResult "_source") <;>
            simp [requestsOf, Request.documentID?, hs, hd, hm]
  · intro req hmem
    cases hdata : env.marshalMap (updateEnvelope m) with
    | error e =>
      unfold updateDocumentByDocumentID at hmem
      simp [hdata, requestsOf] at hmem
    | ok data =>
      rw [hupdate data hdata, List.mem_singleton] at hmem
      rw [hmem]
      rfl
  · intro data hdata
    rw [hupdate data hdata]
    rfl
  · unfold deleteDocumentByDocumentID
    simp only []
    cases env.transport (Request.delete indexName (Itoa doc.Id)) with
    | error err => simp [requestsOf, Request.documentID?]
    | ok res => cases hs : res.IsError <;> simp [requestsOf, Request.documentID?, hs]
  · intro a b hne h
    exact hne (Itoa_injective a b h)

/-! ## C3: the text a payload carries -/

/-- A string of plain characters is read back as it is, up to the closing quote. -/
theorem readString_plain (p rest : List Char) (hp : plainChars p = true) :
    readString (p ++ Char.ofNat 34 :: rest) = some (p, rest) := by
  induction p with
  | nil =>
    unfold readString
    simp
  | cons c cs ih =>
    simp only [plainChars, plainChar, Bool.and_eq_true, decide_eq_true_eq] at hp
    obtain ⟨⟨⟨h1, h2⟩, h3⟩, hcs⟩ := hp
    simp only [List.cons_append]
    unfold readString
    simp [h1, h2, Nat.not_lt.mpr h3, ih hcs]

theorem plainChars_append (p q : List Char) (hp : plainChars p = true)
    (hq : plainChars q = true) : plainChars (p ++ q) = true := by
  induction p with
  | nil => simpa using hq
  | cons c cs ih =>
    simp only [plainChars, Bool.and_eq_true] at hp
    simp only [List.cons_append, plainChars, Bool.and_eq_true]
    exact ⟨hp.1, ih hp.2⟩

/-- The payload with one field, read: the template of the wildcard, match and term
queries with plain characters for the kind, the key and the text. -/
theorem readValue_singleField (m : Nat) (kind key text : List Char)
    (hkind : plainChars kind = true) (hkey : plainChars key = true)
    (htext : plainChars text = true) :
    readValue (m + 7)
        ("\x7b\n\t\t\"query\": \x7b\n\t\t\t\"".data ++ (kind ++
          ("\": \x7b\n\t\t\t\t\"".data ++ (key ++ ("\": \"".data ++
            (text ++ "\"\n\t\t\t\x7d\n\t\t\x7d\n\t\x7d".data)))))) =
      some (JSON.object [("query", JSON.object
        [(String.mk kind, JSON.object [(String.mk key, JSON.string (String.mk text))])])],
        []) := by
  have h0 := fun rest => readString_plain "query".data rest rfl
  have h1 := fun rest => readString_plain kind rest hkind
  have h2 := fun rest => readString_plain key rest hkey
  have h3 := fun rest => readString_plain text rest htext
  simp at h0
  simp [readValue, readMembers, skipWhitespace, isWhitespace, h0, h1, h2, h3]

/-- The multi-match payload, read. -/
theorem readValue_multiMatch (m : Nat) (text f1 f2 f3 : List Char)
    (htext : plainChars text = true) (h1 : plainChars f1 = true)
    (h2 : plainChars f2 = true) (h3 : plainChars f3 = true) :
    readValue (m + 13)
        ("\x7b\n\t\t\"query\": \x7b\n\t\t\t\"multi_match\": \x7b\n\t\t\t\t\"query\": \"".data ++
          (text ++ ("\",\n\t\t\t\t\"fields\": [\"".data ++ (f1 ++ ("\", \"".data ++
            (f2 ++ ("\", \"".data ++ (f3 ++
              "\"]\n\t\t\t\x7d\n\t\t\x7d\n\t\x7d".data)))))))) =
      some (JSON.object [("query", JSON.object [("multi_match", JSON.object
        [("query", JSON.string (String.mk text)),
         ("fields", JSON.array [JSON.string (String.mk f1), JSON.string (String.mk f2),
            JSON.string (String.mk f3)])])])], []) := by
  have g0 := fun rest => readString_plain "query".data rest rfl
  have g1 := fun rest => readString_plain "multi_match".data rest rfl
  have g2 := fun rest => readString_plain "fields".data rest rfl
  have k0 := fun rest => readString_plain text rest htext
  have k1 := fun rest => readString_plain f1 rest h1
  have k2 := fun rest => readString_plain f2 rest h2
  have k3 := fun rest => readString_plain f3 rest h3
  simp at g0 g1 g2
  simp [readValue, readMembers, readElements, skipWhitespace, isWhitespace, g0, g1, g2, k0,
    k1, k2, k3]

theorem wildcardQuery_data (fieldName matchQuery : String) :
    (wildcardQuery fieldName matchQuery).data =
      "\x7b\n\t\t\"query\": \x7b\n\t\t\t\"".data ++ ("wildcard".data ++
        ("\": \x7b\n\t\t\t\t\"".data ++ (fieldName.data ++ ("\": \"".data ++
          (matchQuery.data ++ "\"\n\t\t\t\x7d\n\t\t\x7d\n\t\x7d".data))))) :=
  rfl

theorem matchQueryPayload_data (fieldName matchQuery : String) :
    (matchQueryPayload fieldName matchQuery).data =
      "\x7b\n\t\t\"query\": \x7b\n\t\t\t\"".data ++ ("match".data ++
        ("\": \x7b\n\t\t\t\t\"".data ++ (fieldName.data ++ ("\": \"".data ++
          (matchQuery.data ++ "\"\n\t\t\t\x7d\n\t\t\x7d\n\t\x7d".data))))) :=
  rfl

theorem termQuery_data_keyword (fieldName matchQuery : String) :
    (termQuery fieldName matchQuery).data =
      "\x7b\n\t\t\"query\": \x7b\n\t\t\t\"".data ++ ("term".data ++
        ("\": \x7b\n\t\t\t\t\"".data ++ ((fieldName.data ++ ".keyword".data) ++ ("\": \"".data ++
          (matchQuery.data ++ "\"\n\t\t\t\x7d\n\t\t\x7d\n\t\x7d".data))))) := by
  rw [termQuery_data]
  simp

theorem multiMatchQuery_data (fieldName fieldName2 fieldName3 matchQuery : String) :
    (multiMatchQuery fieldName fieldName2 fieldName3 matchQuery).data =
      "\x7b\n\t\t\"query\": \x7b\n\t\t\t\"multi_match\": \x7b\n\t\t\t\t\"query\": \"".data ++
        (matchQuery.data ++ ("\",\n\t\t\t\t\"fields\": [\"".data ++ (fieldName.data ++
          ("\", \"".data ++ (fieldName2.data ++ ("\", \"".data ++ (fieldName3.data ++
            "\"]\n\t\t\t\x7d\n\t\t\x7d\n\t\x7d".data))))))) :=
  rfl

/-- A text that reads as one value followed by nothing denotes that value, when the fuel
of `parseJSON` is at least the fuel the reading used. -/
theorem parseJSON_of_readValue (text : String) (chars : List Char) (k : Nat) (value : JSON)
    (hdata : text.data = chars) (hlen : k ≤ chars.length + 1)
    (hread : ∀ m, readValue (m + k) chars = some (value, [])) :
    parseJSON text = some value := by
  unfold parseJSON
  rw [hdata]
  obtain ⟨m, hm⟩ : ∃ m, chars.length + 1 = m + k := ⟨chars.length + 1 - k, by omega⟩
  rw [hm, hread m]
  simp [skipWhitespace]

/-- C3, refuted as stated: the builders copy the text in as it is.  A text that is a
double quote gives a payload that is not well-formed JSON; a text with a quote and a comma
adds a key to the query; a text with a backslash and the letter `n` is read back as a
different text. -/
theorem query_text_is_not_escaped :
    parseJSON (matchQueryPayload "name" "\"") = none ∧
    parseJSON (wildcardQuery "name" "x\", \"boost\": \"9") =
      some (JSON.object [("query", JSON.object [("wildcard", JSON.object
        [("name", JSON.string "x"), ("boost", JSON.string "9")])])]) ∧
    parseJSON (termQuery "name" "a\\nb") =
      some (JSON.object [("query", JSON.object [("term", JSON.object
        [("name.keyword", JSON.string "a\nb")])])]) ∧
    parseJSON (multiMatchQuery "name" "category" "description" "\\") = none :=
  ⟨rfl, rfl, rfl, rfl⟩

/-- C3, amended: for field names and a query text without double quote, backslash and
control character, the payload of the wildcard, match, term and multi-match builders is
well-formed JSON; the value read at the query is exactly the text and the keys read are
exactly the field names (for a term query the field name followed by `.keyword`). -/
theorem plain_text_payloads_are_well_formed (f f2 f3 t : String)
    (hf : plainText f = true) (hf2 : plainText f2 = true) (hf3 : plainText f3 = true)
    (ht : plainText t = true) :
    parseJSON (wildcardQuery f t) =
        some (JSON.object [("query", JSON.object [("wildcard", JSON.object
          [(f, JSON.string t)])])]) ∧
      parseJSON (matchQueryPayload f t) =
        some (JSON.object [("query", JSON.object [("match", JSON.object
          [(f, JSON.string t)])])]) ∧
      parseJSON (termQuery f t) =
        some (JSON.object [("query", JSON.object [("term", JSON.object
          [(f ++ ".keyword", JSON.string t)])])]) ∧
      parseJSON (multiMatchQuery f f2 f3 t) =
        some (JSON.object [("query", JSON.object [("multi_match", JSON.object
          [("query", JSON.string t),
           ("fields", JSON.array [JSON.string f, JSON.string f2, JSON.string f3])])])]) := by
  unfold plainText at hf hf2 hf3 ht
  refine ⟨?_, ?_, ?_, ?_⟩
  · apply parseJSON_of_readValue _ _ 7 _ (wildcardQuery_data f t)
    · simp
    · intro m
      exact readValue_singleField m "wildcard".data f.data t.data rfl hf ht
  · apply parseJSON_of_readValue _ _ 7 _ (matchQueryPayload_data f t)
    · simp
    · intro m
      exact readValue_singleField m "match".data f.data t.data rfl hf ht
  · apply parseJSON_of_readValue _ _ 7 _ (termQuery_data_keyword f t)
    · simp
    · intro m
      exact readValue_singleField m "term".data (f.data ++ ".keyword".data) t.data rfl
        (plainChars_append _ _ hf rfl) ht
  · apply parseJSON_of_readValue _ _ 13 _ (multiMatchQuery_data f f2 f3 t)
    · simp
    · intro m
      exact readValue_multiMatch m t.data f.data f2.data f3.data ht hf hf2 hf3

/-- C3 amended, at the inputs `main` passes. -/
theorem plain_text_payloads_are_well_formed_witness :
    (plainText "name" = true ∧ plainText "category" = true ∧
      plainText "description" = true ∧ plainText "Martabak Manis" = true) ∧
    (parseJSON (wildcardQuery "name" "Martabak Manis") =
        some (JSON.object [("query", JSON.object [("wildcard", JSON.object
          [("name", JSON.string "Martabak Manis")])])]) ∧
      parseJSON (matchQueryPayload "name" "Martabak Manis") =
        some (JSON.object [("query", JSON.object [("match", JSON.object
          [("name", JSON.string "Martabak Manis")])])]) ∧
      parseJSON (termQuery "name" "Martabak Manis") =
        some (JSON.object [("query", JSON.object [("term", JSON.object
          [("name" ++ ".keyword", JSON.string "Martabak Manis")])])]) ∧
      parseJSON (multiMatchQuery "name" "category" "description" "Martabak Manis") =
        some (JSON.object [("query", JSON.object [("multi_match", JSON.object
          [("query", JSON.string "Martabak Manis"),
           ("fields", JSON.array [JSON.string "name", JSON.string "category",
              JSON.string "description"])])])])) :=
  ⟨⟨rfl, rfl, rfl, rfl⟩,
    plain_text_payloads_are_well_formed "name" "category" "description" "Martabak Manis"
      rfl rfl rfl rfl⟩

/-! ## C7: the body of an update -/

theorem mapIndex_null_or_mem (a : GoMap) (key : String) :
    mapIndex a key = JSON.null ∨ ∃ k, (k, mapIndex a key) ∈ a := by
  induction a with
  | nil => exact Or.inl rfl
  | cons kv rest ih =>
    obtain ⟨k, v⟩ := kv
    unfold mapIndex
    by_cases hk : k = key
    · simp only [hk, if_true]
      exact Or.inr ⟨key, List.mem_cons_self _ _⟩
    · simp only [hk, if_false]
      cases ih with
      | inl h => exact Or.inl h
      | inr h =>
        obtain ⟨k2, hmem⟩ := h
        exact Or.inr ⟨k2, List.mem_cons_of_mem _ hmem⟩

theorem SameValue_refl_bounded (n : Nat) : ∀ v : JSON, sizeOf v ≤ n → SameValue v v := by
  induction n with
  | zero =>
    intro v hv
    cases v <;> simp at hv
  | succ n ih =>
    intro v hv
    cases v with
    | null => exact SameValue.null
    | bool b => exact SameValue.bool b
    | number l => exact SameValue.number l
    | string s => exact SameValue.string s
    | array xs =>
      refine SameValue.array xs xs rfl ?_
      intro i hi
      apply ih
      have hmem : xs.getD i JSON.null ∈ xs := by
        rw [List.getD_eq_getElem _ _ hi]
        exact List.getElem_mem _
      have := List.sizeOf_lt_of_mem hmem
      simp at hv
      omega
    | object a =>
      refine SameValue.object a a (fun _ => Iff.rfl) ?_
      intro key
      cases mapIndex_null_or_mem a key with
      | inl h => rw [h]; exact SameValue.null
      | inr h =>
        obtain ⟨k, hmem⟩ := h
        apply ih
        have h1 := List.sizeOf_lt_of_mem hmem
        have h2 : sizeOf (mapIndex a key) < sizeOf (k, mapIndex a key) := by
          simp
        simp at hv
        omega

theorem SameValue_refl (v : JSON) : SameValue v v :=
  SameValue_refl_bounded (sizeOf v) v (Nat.le_refl _)

theorem encodeStringMembers_length (fields : GoMap) :
    ∀ chars, encodeStringMembers fields = some chars → fields.length ≤ chars.length := by
  induction fields with
  | nil =>
    intro chars h
    simp
  | cons kv tail ih =>
    intro chars h
    obtain ⟨key, value⟩ := kv
    unfold encodeStringMembers at h
    cases value with
    | string text =>
      simp only at h
      split at h
      · cases tail with
        | nil =>
          simp only [Option.some.injEq] at h
          subst h
          simp
        | cons t tail2 =>
          simp only at h
          cases hm : encodeStringMembers (t :: tail2) with
          | none => simp [hm] at h
          | some more =>
            simp only [hm, Option.some.injEq] at h
            subst h
            have := ih more hm
            simp at this ⊢
            omega
      · simp at h
    | null => simp at h
    | bool b => simp at h
    | number l => simp at h
    | array xs => simp at h
    | object a => simp at h

theorem readValue_plainString (m : Nat) (text rest : List Char)
    (hp : plainChars text = true) :
    readValue (m + 1) (Char.ofNat 34 :: (text ++ Char.ofNat 34 :: rest)) =
      some (JSON.string (String.mk text), rest) := by
  have ht := fun r => readString_plain text r hp
  simp [readValue, skipWhitespace, isWhitespace, ht]

theorem readMembers_strings (fields : GoMap) :
    ∀ (chars rest : List Char) (fuel : Nat), encodeStringMembers fields = some chars →
      fields.length + 1 ≤ fuel → readMembers fuel (chars ++ rest) = some (fields, rest) := by
  induction fields with
  | nil =>
    intro chars rest fuel h
    simp [encodeStringMembers] at h
  | cons kv tail ih =>
    intro chars rest fuel h hfuel
    obtain ⟨key, value⟩ := kv
    unfold encodeStringMembers at h
    obtain ⟨m, rfl⟩ : ∃ m, fuel = m + 1 := ⟨fuel - 1, by omega⟩
    obtain ⟨j, hj⟩ : ∃ j, m = j + 1 := ⟨m - 1, by simp at hfuel; omega⟩
    cases value with
    | string text =>
      simp only at h
      split at h
      · rename_i hplain
        simp only [Bool.and_eq_true] at hplain
        have hk := fun r => readString_plain key.data r hplain.1
        have hval : ∀ r, readValue m (Char.ofNat 34 :: (text.data ++ Char.ofNat 34 :: r)) =
            some (JSON.string text, r) := by
          intro r
          rw [hj]
          exact readValue_plainString j text.data r hplain.2
        cases tail with
        | nil =>
          simp only [Option.some.injEq] at h
          subst h
          simp [readMembers, skipWhitespace, isWhitespace, hk, hval]
        | cons t tail2 =>
          simp only at h
          cases hm : encodeStringMembers (t :: tail2) with
          | none => simp [hm] at h
          | some more =>
            simp only [hm, Option.some.injEq] at h
            subst h
            have hrest := ih more rest m hm (by simp at hfuel ⊢; omega)
            simp [readMembers, skipWhitespace, isWhitespace, hk, hval, hrest]
      · simp at h
    | null => simp at h
    | bool b => simp at h
    | number l => simp at h
    | array xs => simp at h
    | object a => simp at h

theorem encodeStringMembers_head (fields : GoMap) (chars : List Char)
    (h : encodeStringMembers fields = some chars) :
    ∃ tl, chars = Char.ofNat 34 :: tl := by
  cases fields with
  | nil => simp [encodeStringMembers] at h
  | cons kv tail =>
    obtain ⟨key, value⟩ := kv
    unfold encodeStringMembers at h
    cases value with
    | string text =>
      simp only at h
      split at h
      · cases tail with
        | nil =>
          simp only [Option.some.injEq] at h
          exact ⟨_, h.symm⟩
        | cons t tail2 =>
          simp only at h
          cases hm : encodeStringMembers (t :: tail2) with
          | none => simp [hm] at h
          | some more =>
            simp only [hm, Option.some.injEq] at h
            exact ⟨_, h.symm⟩
      · simp at h
    | null => simp at h
    | bool b => simp at h
    | number l => simp at h
    | array xs => simp at h
    | object a => simp at h

theorem encodeStringObject_length (fields : GoMap) (chars : List Char)
    (h : encodeStringObject fields = some chars) : fields.length ≤ chars.length := by
  unfold encodeStringObject at h
  cases fields with
  | nil => simp
  | cons kv tail =>
    simp only at h
    cases hm : encodeStringMembers (kv :: tail) with
    | none => simp [hm] at h
    | some members =>
      simp only [hm, Option.some.injEq] at h
      subst h
      have := encodeStringMembers_length _ members hm
      simp at this ⊢
      omega

theorem readValue_stringObject (fields : GoMap) (chars rest : List Char) (m : Nat)
    (h : encodeStringObject fields = some chars) (hm : fields.length + 1 ≤ m) :
    readValue (m + 1) (chars ++ rest) = some (JSON.object fields, rest) := by
  unfold encodeStringObject at h
  cases fields with
  | nil =>
    simp only [Option.some.injEq] at h
    subst h
    simp [readValue, skipWhitespace, isWhitespace]
  | cons kv tail =>
    simp only at h
    cases hmem : encodeStringMembers (kv :: tail) with
    | none => simp [hmem] at h
    | some members =>
      simp only [hmem, Option.some.injEq] at h
      subst h
      have hread := readMembers_strings (kv :: tail) members rest m hmem hm
      obtain ⟨tl, htl⟩ := encodeStringMembers_head _ _ hmem
      subst htl
      simp only [List.cons_append] at hread
      simp [readValue, skipWhitespace, isWhitespace, hread]

theorem sampleMarshal_reads (v : GoMap) (data : String)
    (h : sampleMarshal v = Except.ok data) : parseJSON data = some (JSON.object v) := by
  unfold sampleMarshal at h
  split at h
  · rename_i key value
    split at h
    · rename_i hkey
      have hk := fun r => readString_plain key.data r hkey
      split at h
      · simp only [Except.ok.injEq] at h
        subst h
        apply parseJSON_of_readValue _ _ 3 _ rfl
        · simp
        · intro m
          simp [readValue, readMembers, skipWhitespace, isWhitespace, dropWord, hk]
      · rename_i fields
        split at h
        · rename_i chars henc
          simp only [Except.ok.injEq] at h
          subst h
          have hlen := encodeStringObject_length fields chars henc
          apply parseJSON_of_readValue _ _ (fields.length + 4) _ rfl
          · simp
            omega
          · intro m
            have hv := readValue_stringObject fields chars [Char.ofNat 125]
              (m + fields.length + 1) henc (by omega)
            have hfuel : m + (fields.length + 4) = (m + fields.length + 1 + 1) + 1 + 1 := by
              omega
            rw [hfuel]
            generalize m + fields.length + 1 + 1 = fuel at hv ⊢
            simp [readValue, readMembers, skipWhitespace, isWhitespace, hk, hv]
        · simp at h
      · simp at h
    · simp at h
  · simp at h

theorem sampleMarshal_faithful : FaithfulEncoder sampleMarshal := by
  intro v data h
  exact ⟨v, sampleMarshal_reads v data h, List.Perm.refl _, fun key => SameValue_refl _⟩

/-- `updateDocumentByDocumentID` calls the client once, with the encoding of the envelope,
when the envelope encodes. -/
theorem update_requests (env : Env) (indexName : String) (documentID : Int)
    (m : Option GoMap) (data : String)
    (hdata : env.marshalMap (updateEnvelope m) = Except.ok data) :
    requestsOf (updateDocumentByDocumentID env indexName documentID m).trace =
      [Request.update indexName (Itoa documentID) data] := by
  unfold updateDocumentByDocumentID
  simp only [hdata]
  cases env.transport (Request.update indexName (Itoa documentID) data) with
  | error err => simp [requestsOf]
  | ok res => cases hs : res.IsError <;> simp [requestsOf, hs]

/-- C7: for every encoder that keeps the contract of `json.Marshal`, and every mapping `m`
(the nil map included) whose envelope it encodes, `updateDocumentByDocumentID` calls the
client once and the body it sends is a JSON text denoting an object with exactly one
top-level key, `doc`; the value at `doc` is the same value as `m`: `null` for the nil map,
otherwise an object with exactly the keys of `m` and at each key the same value as `m`
has; and the map of the caller is the map that was passed. -/
theorem update_body_wraps_fields (env : Env) (indexName : String) (documentID : Int)
    (m : Option GoMap) (data : String)
    (hfaithful : FaithfulEncoder env.marshalMap)
    (hdata : env.marshalMap (updateEnvelope m) = Except.ok data) :
    requestsOf (updateDocumentByDocumentID env indexName documentID m).trace =
        [Request.update indexName (Itoa documentID) data] ∧
      (∃ w, parseJSON data = some (JSON.object [("doc", w)]) ∧
        SameValue w (mapValue m) ∧
        (m = none → w = JSON.null) ∧
        (∀ fields, m = some fields →
          ∃ sent, w = JSON.object sent ∧
            (∀ key, key ∈ sent.map Prod.fst ↔ key ∈ fields.map Prod.fst) ∧
            ∀ key, SameValue (mapIndex sent key) (mapIndex fields key))) ∧
      updatedFieldsAfterUpdate env indexName documentID m = m := by
  refine ⟨update_requests env indexName documentID m data hdata, ?_, rfl⟩
  obtain ⟨w0, hparse, hperm, hsame⟩ := hfaithful _ _ hdata
  have hkeys : w0.map Prod.fst = ["doc"] := by
    have : (w0.map Prod.fst).Perm ["doc"] := by simpa [updateEnvelope] using hperm
    exact List.perm_singleton.mp this
  cases w0 with
  | nil => simp at hkeys
  | cons kv tl =>
    obtain ⟨k, w⟩ := kv
    simp only [List.map_cons, List.cons.injEq, List.map_eq_nil_iff] at hkeys
    obtain ⟨hk, htl⟩ := hkeys
    subst hk htl
    have hdoc : SameValue w (mapValue m) := by
      have := hsame "doc"
      simpa [mapIndex, updateEnvelope] using this
    refine ⟨w, hparse, hdoc, ?_, ?_⟩
    · intro hm
      subst hm
      simp only [mapValue] at hdoc
      cases hdoc
      rfl
    · intro fields hm
      subst hm
      simp only [mapValue] at hdoc
      cases hdoc with
      | object a b hkeys hvalues => exact ⟨a, rfl, hkeys, hvalues⟩

/-- C7, at the fields `main` passes, with the sample encoder: the body is the text
`{"doc":{"size":"L","status":"Not Ready"}}`. -/
theorem update_body_wraps_fields_witness :
    (FaithfulEncoder encodingEnv.marshalMap ∧
      encodingEnv.marshalMap
          (updateEnvelope (some [("size", JSON.string "L"), ("status", JSON.string "Not Ready")])) =
        Except.ok "\x7b\"doc\":\x7b\"size\":\"L\",\"status\":\"Not Ready\"\x7d\x7d") ∧
    (requestsOf (updateDocumentByDocumentID encodingEnv "products" 1
          (some [("size", JSON.string "L"), ("status", JSON.string "Not Ready")])).trace =
        [Request.update "products" (Itoa 1)
          "\x7b\"doc\":\x7b\"size\":\"L\",\"status\":\"Not Ready\"\x7d\x7d"] ∧
      (∃ w, parseJSON "\x7b\"doc\":\x7b\"size\":\"L\",\"status\":\"Not Ready\"\x7d\x7d" =
          some (JSON.object [("doc", w)]) ∧
        SameValue w
          (mapValue (some [("size", JSON.string "L"), ("status", JSON.string "Not Ready")])) ∧
        (some [("size", JSON.string "L"), ("status", JSON.string "Not Ready")] = none →
          w = JSON.null) ∧
        (∀ fields,
          some [("size", JSON.string "L"), ("status", JSON.string "Not Ready")] = some fields →
          ∃ sent, w = JSON.object sent ∧
            (∀ key, key ∈ sent.map Prod.fst ↔ key ∈ fields.map Prod.fst) ∧
            ∀ key, SameValue (mapIndex sent key) (mapIndex fields key))) ∧
      updatedFieldsAfterUpdate encodingEnv "products" 1
          (some [("size", JSON.string "L"), ("status", JSON.string "Not Ready")]) =
        some [("size", JSON.string "L"), ("status", JSON.string "Not Ready")]) :=
  ⟨⟨sampleMarshal_faithful, rfl⟩,
    update_body_wraps_fields encodingEnv "products" 1
      (some [("size", JSON.string "L"), ("status", JSON.string "Not Ready")])
      "\x7b\"doc\":\x7b\"size\":\"L\",\"status\":\"Not Ready\"\x7d\x7d"
      sampleMarshal_faithful rfl⟩

/-! ## C9: what a term payload denotes -/

/-- C9, refuted as stated: the text is copied, but the payload does not always target the
keyword sub-field of the field with that text.  A text holding a backslash and the letter
`n` is read by the service as another text; a field name holding a quote makes the query
target the fields `a` and `c.keyword`; a text that is a double quote gives a payload that
is not JSON. -/
theorem term_payload_may_denote_another_query :
    parseJSON (termQuery "name" "a\\nb") =
      some (JSON.object [("query", JSON.object [("term", JSON.object
        [("name.keyword", JSON.string "a\nb")])])]) ∧
    parseJSON (termQuery "a\": \"b\", \"c" "x") =
      some (JSON.object [("query", JSON.object [("term", JSON.object
        [("a", JSON.string "b"), ("c.keyword", JSON.string "x")])])]) ∧
    parseJSON (termQuery "name" "\"") = none :=
  ⟨rfl, rfl, rfl⟩

/-- C9, amended: the payload `searchDocumentWithTermQuery` sends is the term template with
the key `f` followed by `.keyword` and the text `t` copied unchanged; it is the body of the
one search request; two texts that differ, in letter case or otherwise, give different
payloads; and when `f` and `t` hold no double quote, backslash or control character, the
payload read as JSON is a term query on exactly the key `f` followed by `.keyword` with
exactly the text `t`. -/
theorem term_query_copies_text (env : Env) (indexName f t : String) :
    termQuery f t =
        "\x7b\n\t\t\"query\": \x7b\n\t\t\t\"term\": \x7b\n\t\t\t\t\"" ++
          (f ++ (".keyword\": \"" ++ (t ++ "\"\n\t\t\t\x7d\n\t\t\x7d\n\t\x7d"))) ∧
      requestsOf (searchDocumentWithTermQuery env indexName f t).trace =
        [Request.search indexName (termQuery f t)] ∧
      (∀ t2, t ≠ t2 → termQuery f t ≠ termQuery f t2) ∧
      termQuery "name" "Martabak Manis" ≠ termQuery "name" "martabak manis" ∧
      (plainText f = true → plainText t = true →
        parseJSON (termQuery f t) =
          some (JSON.object [("query", JSON.object [("term", JSON.object
            [(f ++ ".keyword", JSON.string t)])])])) := by
  have inj : ∀ g a b : String, termQuery g a = termQuery g b → a = b := by
    intro g a b h
    have hd := congrArg String.data h
    rw [termQuery_data, termQuery_data] at hd
    have h1 := List.append_cancel_left hd
    have h2 := List.append_cancel_left h1
    have h3 := List.append_cancel_left h2
    have h4 := List.append_cancel_right h3
    exact String.ext h4
  refine ⟨rfl, searchWith_requests env _ _ _ _, ?_, ?_, ?_⟩
  · intro t2 hne h
    exact hne (inj f t t2 h)
  · intro h
    have := inj _ _ _ h
    revert this
    decide
  · intro hf ht
    unfold plainText at hf ht
    apply parseJSON_of_readValue _ _ 7 _ (termQuery_data_keyword f t)
    · simp
    · intro m
      exact readValue_singleField m "term".data (f.data ++ ".keyword".data) t.data rfl
        (plainChars_append _ _ hf rfl) ht

/-- C9 amended, at the field and the text `main` passes. -/
theorem term_query_copies_text_witness :
    (plainText "name" = true ∧ plainText "Martabak Manis" = true) ∧
    parseJSON (termQuery "name" "Martabak Manis") =
      some (JSON.object [("query", JSON.object [("term", JSON.object
        [("name" ++ ".keyword", JSON.string "Martabak Manis")])])]) :=
  ⟨⟨rfl, rfl⟩,
    (term_query_copies_text (sampleEnv 200 []) "products" "name" "Martabak Manis").2.2.2.2
      rfl rfl⟩

end GoElasticsearch
